import Mathlib

/-!
Verification of the UTEC Layer Tools QGIS plugin.

This file gives a shallow embedding of the plugin's pure logic
(src/modules/rename.py, general.py, geopackage.py, layer_location.py,
context.py, constants.py, src/__init__.py, src/UTEC_layer_tools.py)
and proves the specified properties about it.

Host-owned data (QGIS layers, layer-tree nodes, provider registry,
project storage) is modelled by explicit Lean structures; host calls
whose results depend only on host state are modelled as fields of a
`World` record.  Python `str`/`None` optionality is modelled with
`Option String`, Python exceptions with `Option`/`Except`.
-/

namespace LayerTools

/-! ## Geometry and layer model (qgis.core types used by the plugin) -/

/-- Geometry type of a vector layer, `QgsWkbTypes.geometryType(wkbType)`. -/
inductive GeometryType where
  | point
  | line
  | polygon
  | unknownGeometry
  | nullGeometry
deriving DecidableEq, Repr

/-- constants.py `GEOMETRY_SUFFIX_MAP` (same table in the qgis4 and the
legacy branch): Line to "l", Point to "pt", Polygon to "pg"; other
geometry types are absent from the dict. -/
def GEOMETRY_SUFFIX_MAP : GeometryType → Option String
  | .line => some "l"
  | .point => some "pt"
  | .polygon => some "pg"
  | _ => none

/-- Host `QgsWkbTypes.geometryDisplayString` (values from the QGIS sources). -/
def geometryDisplayString : GeometryType → String
  | .point => "Point"
  | .line => "Line"
  | .polygon => "Polygon"
  | .unknownGeometry => "Unknown geometry"
  | .nullGeometry => "No geometry"

/-- The dynamic class of a `QgsMapLayer` (`isinstance` checks in the code). -/
inductive LayerKind where
  | vector
  | raster
  | other
deriving DecidableEq, Repr

/-- A host `QgsMapLayer` handle, restricted to the attributes the plugin
reads.  Two equal values model the same host object (in QGIS a layer
object is determined by its unique id). -/
structure Layer where
  id : String
  name : String := ""
  source : String := ""
  providerType : String := ""
  kind : LayerKind := .vector
  featureCount : Nat := 0
  geomType : GeometryType := .point
  valid : Bool := true
deriving DecidableEq, Repr

/-- Python truthiness of an optional string (`if not ren.new_name`). -/
def strTruthy : Option String → Bool
  | none => false
  | some s => s != ""

/-- Python `s.endswith(t)`, computed on the underlying character lists so
that concrete instances reduce in the kernel. -/
def strEndsWith (s t : String) : Bool :=
  t.data.isSuffixOf s.data

theorem append_ne_empty_left {a b : String} (ha : a ≠ "") : a ++ b ≠ "" := by
  intro h
  have hd : (a ++ b).data = "".data := congrArg String.data h
  rw [String.data_append] at hd
  have hnil : a.data = [] := (List.append_eq_nil.mp hd).1
  apply ha
  cases a
  simp_all

/-! ## rename.py -/

/-- rename.py dataclass `Rename`. -/
structure Rename where
  layer : Option Layer := none
  old_name : Option String := none
  new_name : Option String := none
  skip : Option String := none
  error : Option String := none
deriving DecidableEq, Repr

/-- rename.py `geometry_type_suffix`. -/
def geometry_type_suffix (layer : Layer) : String :=
  if layer.kind ≠ LayerKind.vector then ""
  else if layer.name = "polylines" ∨ strEndsWith layer.name " - pl" then " - pl"
  else " - " ++ (GEOMETRY_SUFFIX_MAP layer.geomType).getD
      (geometryDisplayString layer.geomType)

/-- The suffix chosen inside `handle_name_collisions`: empty for a layer
with zero features, the geometry suffix otherwise. -/
def collisionSuffix (layer : Layer) : String :=
  if layer.featureCount = 0 then "" else geometry_type_suffix layer

/-- `final_new_name` in the collision branch of `handle_name_collisions`. -/
def finalCollisionName (name : String) (layer : Layer) : String :=
  name ++ collisionSuffix layer

/-- `Rename(layer, layer.name(), new_name)` as constructed by
`handle_name_collisions`. -/
def mkRen (l : Layer) (nn : String) : Rename :=
  { layer := some l, old_name := some l.name, new_name := some nn }

/-- The `layers` list computed per candidate name in
`handle_name_collisions`: layers of those potential renames whose layer
is not None and whose proposed new name equals `name`. -/
def layersFor (pots : List Rename) (name : String) : List Layer :=
  pots.filterMap fun p =>
    if p.new_name = some name then p.layer else none

/-- The set `\x7bpot.new_name for pot in potential_renames if pot.new_name\x7d`.
Python iterates it in an unspecified order; we keep the distinct truthy
names as a duplicate-free list (all properties proved below are
independent of the iteration order). -/
def namesToProcess (pots : List Rename) : List String :=
  (pots.filterMap fun p =>
    match p.new_name with
    | some s => if s ≠ "" then some s else none
    | none => none).dedup

/-- Entries appended in the collision branch (`len(layers) > 1`). -/
def collisionEntries (name : String) (layers : List Layer) : List Rename :=
  layers.filterMap fun l =>
    if l.name ≠ finalCollisionName name l then some (mkRen l (finalCollisionName name l))
    else none

/-- The singleton branch (`layers[0]`); `none` models the `IndexError`
Python raises when every matching potential rename has `layer = None`. -/
def singleEntry (name : String) : List Layer → Option (List Rename)
  | [] => none
  | l :: _ => some (if l.name ≠ name then [mkRen l name] else [])

/-- One iteration of the `for name in ...` loop of `handle_name_collisions`. -/
def collisionStep (pots : List Rename) (plan : List Rename) (name : String) :
    Option (List Rename) :=
  let layers := layersFor pots name
  if 1 < layers.length then some (plan ++ collisionEntries name layers)
  else (singleEntry name layers).map (fun e => plan ++ e)

/-- rename.py `handle_name_collisions`.  The result is `none` exactly when
Python would raise an `IndexError` (a proposed name all of whose potential
renames carry `layer = None`). -/
def handle_name_collisions (pots : List Rename) : Option (List Rename) :=
  (namesToProcess pots).foldlM (collisionStep pots)
    (pots.filter fun r => !strTruthy r.new_name)

/-! ### Lemmas about `handle_name_collisions` -/

theorem collisionStep_mono {pots plan name plan'}
    (h : collisionStep pots plan name = some plan') :
    ∀ r ∈ plan, r ∈ plan' := by
  simp only [collisionStep] at h
  split at h
  · cases h; intro r hr; exact List.mem_append_left _ hr
  · cases hs : singleEntry name (layersFor pots name) with
    | none => rw [hs] at h; cases h
    | some e => rw [hs] at h; cases h; intro r hr; exact List.mem_append_left _ hr

theorem foldlM_collision_mono {pots} :
    ∀ (names : List String) (init plan : List Rename),
      names.foldlM (collisionStep pots) init = some plan →
      ∀ r ∈ init, r ∈ plan := by
  intro names
  induction names with
  | nil => intro init plan h r hr; cases h; exact hr
  | cons n ns ih =>
    intro init plan h r hr
    rw [List.foldlM_cons] at h
    cases hstep : collisionStep pots init n with
    | none => rw [hstep] at h; cases h
    | some mid =>
      rw [hstep] at h
      exact ih mid plan h r (collisionStep_mono hstep r hr)

theorem foldlM_collision_entries {pots} :
    ∀ (names : List String) (init plan : List Rename) (name : String),
      names.foldlM (collisionStep pots) init = some plan →
      name ∈ names →
      1 < (layersFor pots name).length →
      ∀ r ∈ collisionEntries name (layersFor pots name), r ∈ plan := by
  intro names
  induction names with
  | nil => intro _ _ _ _ hmem; cases hmem
  | cons n ns ih =>
    intro init plan name h hmem hlen r hr
    rw [List.foldlM_cons] at h
    cases hstep : collisionStep pots init n with
    | none => rw [hstep] at h; cases h
    | some mid =>
      rw [hstep] at h
      rcases List.mem_cons.mp hmem with heq | hmem'
      · subst heq
        have hrmid : r ∈ mid := by
          unfold collisionStep at hstep
          rw [if_pos hlen] at hstep
          cases hstep
          exact List.mem_append_right _ hr
        exact foldlM_collision_mono ns mid plan h r hrmid
      · exact ih mid plan name h hmem' hlen r hr

theorem foldlM_collision_all {pots} (P : Rename → Prop)
    (hstepP : ∀ plan name plan', collisionStep pots plan name = some plan' →
      (∀ r ∈ plan, P r) → ∀ r ∈ plan', P r) :
    ∀ (names : List String) (init plan : List Rename),
      (∀ r ∈ init, P r) →
      names.foldlM (collisionStep pots) init = some plan →
      ∀ r ∈ plan, P r := by
  intro names
  induction names with
  | nil => intro init plan hinit h; cases h; exact hinit
  | cons n ns ih =>
    intro init plan hinit h
    rw [List.foldlM_cons] at h
    cases hstep : collisionStep pots init n with
    | none => rw [hstep] at h; cases h
    | some mid =>
      rw [hstep] at h
      exact ih mid plan (hstepP init n mid hstep hinit) h

/-- Every entry a `collisionStep` appends proposes a name different from
the layer's current name. -/
theorem collisionStep_no_identity {pots plan name plan'}
    (h : collisionStep pots plan name = some plan')
    (hplan : ∀ r ∈ plan, strTruthy r.new_name → r.old_name ≠ r.new_name) :
    ∀ r ∈ plan', strTruthy r.new_name → r.old_name ≠ r.new_name := by
  simp only [collisionStep] at h
  split at h
  · cases h
    intro r hr htr
    rcases List.mem_append.mp hr with hl | hrc
    · exact hplan r hl htr
    · unfold collisionEntries at hrc
      rcases List.mem_filterMap.mp hrc with ⟨l, _, hif⟩
      by_cases hc : l.name ≠ finalCollisionName name l
      · rw [if_pos hc] at hif
        cases hif
        simp only [mkRen, ne_eq, Option.some.injEq]
        exact hc
      · rw [if_neg hc] at hif; cases hif
  · cases hs : singleEntry name (layersFor pots name) with
    | none => rw [hs] at h; cases h
    | some e =>
      rw [hs] at h
      cases h
      intro r hr htr
      rcases List.mem_append.mp hr with hl | hrc
      · exact hplan r hl htr
      · unfold singleEntry at hs
        cases hlf : layersFor pots name with
        | nil => rw [hlf] at hs; cases hs
        | cons l rest =>
          rw [hlf] at hs
          cases hs
          by_cases hc : l.name ≠ name
          · rw [if_pos hc] at hrc
            rcases List.mem_singleton.mp hrc with rfl
            simp only [mkRen, ne_eq, Option.some.injEq]
            exact hc
          · rw [if_neg hc] at hrc; cases hrc

/-- A potential rename with a layer and the truthy proposed name `name`
puts `name` into the processed-names set. -/
theorem name_mem_namesToProcess {pots : List Rename} {name : String}
    (hname : name ≠ "") {p : Rename} (hp : p ∈ pots)
    (hnn : p.new_name = some name) : name ∈ namesToProcess pots := by
  unfold namesToProcess
  rw [List.mem_dedup]
  apply List.mem_filterMap.mpr
  refine ⟨p, hp, ?_⟩
  rw [hnn]
  simp [hname]

/-- Claim C1: in `handle_name_collisions`, when two or more layers share
the same (truthy) proposed new name, each colliding layer is planned to
be renamed to the shared name extended by its collision suffix — the
empty suffix for a layer with zero features, its geometry-type suffix
otherwise — unless its current name already equals that final name; and
no entry of the returned plan renames a layer to the name it already has
(layers whose current name equals their final new name are excluded). -/
theorem C1_handle_name_collisions (pots plan : List Rename) (name : String)
    (l : Layer)
    (hplan : handle_name_collisions pots = some plan)
    (hname : name ≠ "")
    (hcoll : 1 < (layersFor pots name).length)
    (hmem : l ∈ layersFor pots name) :
    (l.name ≠ finalCollisionName name l → mkRen l (finalCollisionName name l) ∈ plan) ∧
    (l.name = finalCollisionName name l → mkRen l (finalCollisionName name l) ∉ plan) ∧
    (∀ r ∈ plan, strTruthy r.new_name → r.old_name ≠ r.new_name) := by
  have hnames : name ∈ namesToProcess pots := by
    unfold layersFor at hmem
    rcases List.mem_filterMap.mp hmem with ⟨p, hp, hmatch⟩
    by_cases hnn : p.new_name = some name
    · exact name_mem_namesToProcess hname hp hnn
    · rw [if_neg hnn] at hmatch; cases hmatch
  have hbase : ∀ r ∈ (pots.filter fun r => !strTruthy r.new_name),
      strTruthy r.new_name → r.old_name ≠ r.new_name := by
    intro r hr htr
    have := List.of_mem_filter hr
    rw [htr] at this
    cases this
  have hall : ∀ r ∈ plan, strTruthy r.new_name → r.old_name ≠ r.new_name :=
    foldlM_collision_all _
      (fun plan name plan' h hp => collisionStep_no_identity h hp)
      (namesToProcess pots) _ plan hbase hplan
  refine ⟨?_, ?_, hall⟩
  · intro hne
    apply foldlM_collision_entries (namesToProcess pots) _ plan name hplan hnames hcoll
    unfold collisionEntries
    apply List.mem_filterMap.mpr
    exact ⟨l, hmem, by rw [if_pos hne]⟩
  · intro heq hin
    have hne : finalCollisionName name l ≠ "" := append_ne_empty_left hname
    have := hall _ hin
    simp only [mkRen, strTruthy] at this
    have htr : (finalCollisionName name l != "") = true := by
      simp [hne]
    have := this htr
    rw [heq] at this
    exact this rfl

/-- Concrete witness for `C1_handle_name_collisions`: two point layers
with one feature each both propose the name "grp"; the first one is
renamed to "grp - pt", the second is already called "grp - pt" and is
excluded. -/
theorem C1_handle_name_collisions_witness :
    let l1 : Layer := { id := "a", name := "old1", featureCount := 1 }
    let l2 : Layer := { id := "b", name := "grp - pt", featureCount := 1 }
    let pots : List Rename :=
      [{ layer := some l1, old_name := some "old1", new_name := some "grp" },
       { layer := some l2, old_name := some "grp - pt", new_name := some "grp" }]
    ∃ plan, handle_name_collisions pots = some plan ∧
      mkRen l1 "grp - pt" ∈ plan ∧ mkRen l2 "grp - pt" ∉ plan := by
  intro l1 l2 pots
  refine ⟨[mkRen l1 "grp - pt"], by decide, ?_, ?_⟩
  · have h := C1_handle_name_collisions pots [mkRen l1 "grp - pt"] "grp" l1
      (by decide) (by decide) (by decide) (by decide)
    exact h.1 (by decide)
  · have h := C1_handle_name_collisions pots [mkRen l1 "grp - pt"] "grp" l2
      (by decide) (by decide) (by decide) (by decide)
    exact h.2.1 (by decide)

/-! ## rename.py `fix_layer_name`

Python strings are sequences of Unicode code points; we embed them as
`List Nat`.  `name.encode("cp1252")` and `bytes.decode("utf-8")` are
embedded as executable total functions into `Option`, `none` marking the
`UnicodeEncodeError` / `UnicodeDecodeError` the codecs raise in strict
mode. -/

/-- The characters removed by `re.sub` in `fix_layer_name`:
`< > : " / \ | ? * ,`. -/
def isForbiddenChar (c : Nat) : Bool :=
  c = 60 ∨ c = 62 ∨ c = 58 ∨ c = 34 ∨ c = 47 ∨ c = 92 ∨ c = 124 ∨
    c = 63 ∨ c = 42 ∨ c = 44

/-- `re.sub` over a character list: `inRun` records whether the previous
character belonged to a run of forbidden characters (each maximal run
becomes a single underscore, code point 95). -/
def sanitizeAux (inRun : Bool) : List Nat → List Nat
  | [] => []
  | c :: rest =>
    if isForbiddenChar c then
      if inRun then sanitizeAux true rest
      else 95 :: sanitizeAux true rest
    else c :: sanitizeAux false rest

/-- The `re.sub` call of `fix_layer_name`: every maximal run of forbidden
characters is replaced by one underscore. -/
def sanitizeName (l : List Nat) : List Nat :=
  sanitizeAux false l

/-- The cp1252 positions 0x80–0x9F (byte, code point); the bytes 0x81,
0x8D, 0x8F, 0x90 and 0x9D are undefined in cp1252 and absent here. -/
def cp1252HighTable : List (Nat × Nat) :=
  [(0x80, 0x20AC), (0x82, 0x201A), (0x83, 0x0192), (0x84, 0x201E),
   (0x85, 0x2026), (0x86, 0x2020), (0x87, 0x2021), (0x88, 0x02C6),
   (0x89, 0x2030), (0x8A, 0x0160), (0x8B, 0x2039), (0x8C, 0x0152),
   (0x8E, 0x017D), (0x91, 0x2018), (0x92, 0x2019), (0x93, 0x201C),
   (0x94, 0x201D), (0x95, 0x2022), (0x96, 0x2013), (0x97, 0x2014),
   (0x98, 0x02DC), (0x99, 0x2122), (0x9A, 0x0161), (0x9B, 0x203A),
   (0x9C, 0x0153), (0x9E, 0x017E), (0x9F, 0x0178)]

/-- Encode one code point to its cp1252 byte (`none` = not encodable). -/
def encodeCp1252Char (c : Nat) : Option Nat :=
  if c ≤ 0x7F then some c
  else if 0xA0 ≤ c ∧ c ≤ 0xFF then some c
  else (cp1252HighTable.find? (fun p => p.2 = c)).map (fun p => p.1)

/-- Python `str.encode("cp1252")` in strict mode. -/
def encodeCp1252 : List Nat → Option (List Nat)
  | [] => some []
  | c :: r =>
    match encodeCp1252Char c with
    | none => none
    | some b => (encodeCp1252 r).map (b :: ·)

/-- A UTF-8 continuation byte. -/
def isUtf8Cont (c : Nat) : Bool :=
  0x80 ≤ c ∧ c ≤ 0xBF

/-- Python `bytes.decode("utf-8")` in strict mode (rejects truncated
sequences, overlong encodings, surrogates and code points above
U+10FFFF, like CPython). -/
def utf8Decode : List Nat → Option (List Nat)
  | [] => some []
  | b :: rest =>
    if b ≤ 0x7F then (utf8Decode rest).map (b :: ·)
    else if 0xC2 ≤ b ∧ b ≤ 0xDF then
      match rest with
      | c1 :: rest2 =>
        if isUtf8Cont c1 then
          (utf8Decode rest2).map (((b - 0xC0) * 0x40 + (c1 - 0x80)) :: ·)
        else none
      | [] => none
    else if 0xE0 ≤ b ∧ b ≤ 0xEF then
      match rest with
      | c1 :: c2 :: rest3 =>
        let firstOk :=
          if b = 0xE0 then 0xA0 ≤ c1 ∧ c1 ≤ 0xBF
          else if b = 0xED then 0x80 ≤ c1 ∧ c1 ≤ 0x9F
          else isUtf8Cont c1
        if firstOk ∧ isUtf8Cont c2 then
          (utf8Decode rest3).map
            (((b - 0xE0) * 0x1000 + (c1 - 0x80) * 0x40 + (c2 - 0x80)) :: ·)
        else none
      | _ => none
    else if 0xF0 ≤ b ∧ b ≤ 0xF4 then
      match rest with
      | c1 :: c2 :: c3 :: rest4 =>
        let firstOk :=
          if b = 0xF0 then 0x90 ≤ c1 ∧ c1 ≤ 0xBF
          else if b = 0xF4 then 0x80 ≤ c1 ∧ c1 ≤ 0x8F
          else isUtf8Cont c1
        if firstOk ∧ isUtf8Cont c2 ∧ isUtf8Cont c3 then
          (utf8Decode rest4).map
            (((b - 0xF0) * 0x40000 + (c1 - 0x80) * 0x1000 +
              (c2 - 0x80) * 0x40 + (c3 - 0x80)) :: ·)
        else none
      | _ => none
    else none

/-- The `with contextlib.suppress(UnicodeEncodeError)` block of
`fix_layer_name`: re-encode as cp1252 and decode the bytes as UTF-8.
The block swallows only the encode error (string left unchanged); when
the cp1252 bytes are not valid UTF-8, the `UnicodeDecodeError` of
`.decode("utf-8")` propagates out of the function — modelled by `none`. -/
def mojibakeRepair (name : List Nat) : Option (List Nat) :=
  match encodeCp1252 name with
  | none => some name
  | some bytes => utf8Decode bytes

/-- rename.py `fix_layer_name`. -/
def fix_layer_name (name : List Nat) : Option (List Nat) :=
  (mojibakeRepair name).map sanitizeName

theorem sanitizeAux_cons_bad_true {c : Nat} (h : isForbiddenChar c = true)
    (rest : List Nat) : sanitizeAux true (c :: rest) = sanitizeAux true rest := by
  simp [sanitizeAux, h]

theorem sanitizeAux_cons_bad_false {c : Nat} (h : isForbiddenChar c = true)
    (rest : List Nat) :
    sanitizeAux false (c :: rest) = 95 :: sanitizeAux true rest := by
  simp [sanitizeAux, h]

theorem sanitizeAux_cons_good {c : Nat} (h : isForbiddenChar c = false)
    (flag : Bool) (rest : List Nat) :
    sanitizeAux flag (c :: rest) = c :: sanitizeAux false rest := by
  simp [sanitizeAux, h]

theorem sanitizeAux_forbidden_free :
    ∀ (flag : Bool) (l : List Nat) (c : Nat), c ∈ sanitizeAux flag l →
      isForbiddenChar c = false := by
  intro flag l
  induction l generalizing flag with
  | nil => intro c hc; cases hc
  | cons a rest ih =>
    intro c hc
    by_cases ha : isForbiddenChar a
    · cases flag with
      | true => rw [sanitizeAux_cons_bad_true ha] at hc; exact ih true c hc
      | false =>
        rw [sanitizeAux_cons_bad_false ha] at hc
        rcases List.mem_cons.mp hc with rfl | hc'
        · decide
        · exact ih true c hc'
    · have ha' : isForbiddenChar a = false := by simpa using ha
      rw [sanitizeAux_cons_good ha'] at hc
      rcases List.mem_cons.mp hc with rfl | hc'
      · exact ha'
      · exact ih false c hc'

/-- In a run-free tail position (`[]` or a good character) the run flag
does not matter. -/
theorem sanitizeAux_flag_irrel :
    ∀ rest : List Nat,
      (rest = [] ∨ ∃ d rest', rest = d :: rest' ∧ isForbiddenChar d = false) →
      sanitizeAux true rest = sanitizeAux false rest := by
  intro rest h
  rcases h with rfl | ⟨d, rest', rfl, hd⟩
  · rfl
  · rw [sanitizeAux_cons_good hd, sanitizeAux_cons_good hd]

theorem sanitizeAux_run_absorb :
    ∀ (b rest : List Nat), (∀ c ∈ b, isForbiddenChar c = true) →
      sanitizeAux true (b ++ rest) = sanitizeAux true rest := by
  intro b
  induction b with
  | nil => intro rest _; rfl
  | cons c b' ih =>
    intro rest hb
    have hc : isForbiddenChar c = true := hb c (List.mem_cons_self _ _)
    rw [List.cons_append, sanitizeAux_cons_bad_true hc]
    exact ih rest (fun d hd => hb d (List.mem_cons_of_mem _ hd))

/-- A maximal run of forbidden characters collapses to one underscore. -/
theorem sanitizeName_run (g b rest : List Nat)
    (hg : ∀ c ∈ g, isForbiddenChar c = false)
    (hb : ∀ c ∈ b, isForbiddenChar c = true)
    (hbne : b ≠ [])
    (hrest : rest = [] ∨ ∃ d rest', rest = d :: rest' ∧ isForbiddenChar d = false) :
    sanitizeName (g ++ b ++ rest) = g ++ 95 :: sanitizeName rest := by
  unfold sanitizeName
  induction g with
  | nil =>
    cases b with
    | nil => exact absurd rfl hbne
    | cons c b' =>
      have hc : isForbiddenChar c = true := hb c (List.mem_cons_self _ _)
      simp only [List.nil_append, List.cons_append]
      rw [sanitizeAux_cons_bad_false hc]
      rw [sanitizeAux_run_absorb b' rest
        (fun d hd => hb d (List.mem_cons_of_mem _ hd))]
      rw [sanitizeAux_flag_irrel rest hrest]
  | cons a g' ih =>
    have ha : isForbiddenChar a = false := hg a (List.mem_cons_self _ _)
    simp only [List.cons_append]
    rw [sanitizeAux_cons_good ha]
    rw [ih (fun d hd => hg d (List.mem_cons_of_mem _ hd))]

/-- Claim C10 (code bug): `fix_layer_name` is not total — on the input
"Ü" (code point 0xDC) the cp1252 re-encoding succeeds with the byte 0xDC,
which is not valid UTF-8, and the resulting `UnicodeDecodeError` is not
suppressed (only `UnicodeEncodeError` is), so no sanitized result is
produced; on every input on which the function does return, the result
contains none of the forbidden characters, and each maximal run of
forbidden characters is replaced by a single underscore. -/
theorem C10_fix_layer_name_bug :
    fix_layer_name [0xDC] = none ∧
    (∀ cs r, fix_layer_name cs = some r → ∀ c ∈ r, isForbiddenChar c = false) ∧
    (∀ g b rest, (∀ c ∈ g, isForbiddenChar c = false) →
      (∀ c ∈ b, isForbiddenChar c = true) → b ≠ [] →
      (rest = [] ∨ ∃ d rest', rest = d :: rest' ∧ isForbiddenChar d = false) →
      sanitizeName (g ++ b ++ rest) = g ++ 95 :: sanitizeName rest) := by
  refine ⟨by decide, ?_, sanitizeName_run⟩
  intro cs r h c hc
  unfold fix_layer_name at h
  cases hrep : mojibakeRepair cs with
  | none => rw [hrep] at h; cases h
  | some fixed =>
    rw [hrep] at h
    have h2 : some (sanitizeName fixed) = some r := h
    cases h2
    exact sanitizeAux_forbidden_free false fixed c hc

/-- Witness for the sanitization part of `C10_fix_layer_name_bug`:
"a<,>b" becomes "a_b", and the mojibake example from the docstring,
"Ãœ" (0xC3 0x0153), is repaired to "Ü" (0xDC). -/
theorem C10_fix_layer_name_bug_witness :
    fix_layer_name [97, 60, 44, 62, 98] = some [97, 95, 98] ∧
    (∀ c ∈ [97, 95, 98], isForbiddenChar c = false) ∧
    fix_layer_name [0xC3, 0x0153] = some [0xDC] := by
  refine ⟨by decide, ?_, by decide⟩
  exact C10_fix_layer_name_bug.2.1 [97, 60, 44, 62, 98] [97, 95, 98] (by decide)

/-! ## geopackage.py `check_existing_layer` -/

/-- Association-list lookup (first match), used for Python dict reads. -/
def lookupA {κ α : Type} [DecidableEq κ] (k : κ) : List (κ × α) → Option α
  | [] => none
  | p :: r => if p.1 = k then some p.2 else lookupA k r

/-- The GeoPackage files on disk: path → tables.  Each table carries the
geometry type under which `QgsVectorLayer(f"\x7bpath\x7d|layername=\x7bname\x7d",
..., "ogr")` loads it (`none` = the load is not a valid vector layer,
e.g. a raster table). -/
abbrev GpkgFS := List (String × List (String × Option GeometryType))

/-- geopackage.py `get_gpkg_layer_names` (table names via sqlite_master;
empty when the file does not exist). -/
def get_gpkg_layer_names (fs : GpkgFS) (gpkgPath : String) : List String :=
  ((lookupA gpkgPath fs).getD []).map (fun t => t.1)

/-- Python `\s` on the ASCII range (the layer names at play are ASCII). -/
def isPyWs (c : Char) : Bool :=
  c = ' ' ∨ c = '\t' ∨ c = '\n' ∨ c = '\r' ∨ c.val = 11 ∨ c.val = 12

/-- The `re.sub(rf"\s-\s(l|pt|pg|pl)$", "", layer_name)` call of
`check_existing_layer`: strip one trailing geometry suffix.  The match
is anchored at the end of the string, so it removes either a five
character tail (whitespace, dash, whitespace, "pt"/"pg"/"pl") or a four
character tail (whitespace, dash, whitespace, "l"); the two shapes are
mutually exclusive.  Implemented on the reversed character list. -/
def stripGeomSuffix (name : String) : String :=
  match name.data.reverse with
  | c0 :: c1 :: c2 :: c3 :: rest =>
    if c1 = 'p' ∧ (c0 = 'l' ∨ c0 = 't' ∨ c0 = 'g') then
      match rest with
      | c4 :: rest2 =>
        if isPyWs c2 ∧ c3 = '-' ∧ isPyWs c4 then String.mk rest2.reverse else name
      | [] => name
    else if c0 = 'l' ∧ isPyWs c1 ∧ c2 = '-' ∧ isPyWs c3 then String.mk rest.reverse
    else name
  | _ => name

/-- geopackage.py `check_existing_layer`.  `existing` is the optional
pre-fetched name cache; when absent the table list of the GeoPackage
itself is queried (single sqlite connection). -/
def check_existing_layer (fs : GpkgFS) (gpkgPath : String) (l : Layer)
    (existing : Option (List String)) : String :=
  if l.kind ≠ LayerKind.vector then l.name
  else
    let tablesHere := (lookupA gpkgPath fs).getD []
    let layerExists : Bool :=
      match existing with
      | some es => l.name ∈ es
      | none => l.name ∈ tablesHere.map (fun t => t.1)
    if ¬layerExists then l.name
    else
      match (lookupA l.name tablesHere).getD none with
      | some g =>
          if l.geomType = g then l.name
          else stripGeomSuffix l.name ++ geometry_type_suffix l
      | none => stripGeomSuffix l.name ++ geometry_type_suffix l

theorem stripGeomSuffix_append (base : String) (s : String)
    (hs : s ∈ [" - l", " - pt", " - pg", " - pl"]) :
    stripGeomSuffix (base ++ s) = base := by
  have hd : (base ++ s).data = base.data ++ s.data := String.data_append ..
  fin_cases hs <;>
  · unfold stripGeomSuffix
    rw [hd]
    simp [List.reverse_append, isPyWs]

/-- Claim C9: GeoPackage target-name resolution.  For a vector layer:
if no table with the layer's name exists the name is returned unchanged;
if such a table exists and loads as a vector layer of the same geometry
type the name is returned unchanged (overwrite); otherwise one trailing
geometry suffix is stripped before the layer's own geometry suffix is
appended — so re-applying the resolution to the resolved name never
stacks suffixes (" - l", " - pt", " - pg", " - pl"). -/
theorem C9_check_existing_layer (fs : GpkgFS) (gpkgPath : String) (l : Layer)
    (es : List String) (hvec : l.kind = LayerKind.vector) :
    (l.name ∉ es → check_existing_layer fs gpkgPath l (some es) = l.name) ∧
    (∀ g, l.name ∈ es →
      (lookupA l.name ((lookupA gpkgPath fs).getD [])).getD none = some g →
      l.geomType = g →
      check_existing_layer fs gpkgPath l (some es) = l.name) ∧
    (l.name ∈ es →
      (∀ g, (lookupA l.name ((lookupA gpkgPath fs).getD [])).getD none = some g →
        l.geomType ≠ g) →
      check_existing_layer fs gpkgPath l (some es) =
        stripGeomSuffix l.name ++ geometry_type_suffix l) ∧
    (∀ (n s : String), s ∈ [" - l", " - pt", " - pg", " - pl"] →
      stripGeomSuffix (stripGeomSuffix n ++ s) = stripGeomSuffix n) := by
  refine ⟨?_, ?_, ?_, fun n s hs => stripGeomSuffix_append _ s hs⟩
  · intro hnot
    unfold check_existing_layer
    rw [if_neg (by simp [hvec])]
    simp only
    rw [if_pos (by simp [hnot])]
  · intro g hmem hlook hgeq
    unfold check_existing_layer
    rw [if_neg (by simp [hvec])]
    simp only
    rw [if_neg (by simp [hmem]), hlook]
    simp [hgeq]
  · intro hmem hdiff
    unfold check_existing_layer
    rw [if_neg (by simp [hvec])]
    simp only
    rw [if_neg (by simp [hmem])]
    cases hlook : (lookupA l.name ((lookupA gpkgPath fs).getD [])).getD none with
    | none => simp
    | some g => simp [hdiff g hlook]

/-- Witness for `C9_check_existing_layer`: the table "grp - pt" exists in
the project GeoPackage as a line table; copying a polygon layer named
"grp - pt" resolves to "grp - pg" (the old suffix is stripped, not
stacked), and an absent name is kept. -/
theorem C9_check_existing_layer_witness :
    let fs : GpkgFS := [("proj.gpkg", [("grp - pt", some GeometryType.line)])]
    let l : Layer := { id := "a", name := "grp - pt", featureCount := 2,
                       geomType := GeometryType.polygon }
    let l2 : Layer := { id := "b", name := "fresh", featureCount := 2,
                        geomType := GeometryType.polygon }
    check_existing_layer fs "proj.gpkg" l (some ["grp - pt"]) = "grp - pg" ∧
    check_existing_layer fs "proj.gpkg" l2 (some ["grp - pt"]) = "fresh" ∧
    stripGeomSuffix (stripGeomSuffix "grp - pt" ++ " - pg") = stripGeomSuffix "grp - pt" := by
  intro fs l l2
  have h1 := C9_check_existing_layer fs "proj.gpkg" l ["grp - pt"] (by decide)
  have h2 := C9_check_existing_layer fs "proj.gpkg" l2 ["grp - pt"] (by decide)
  refine ⟨?_, ?_, ?_⟩
  · have := h1.2.2.1 (by decide) (by decide)
    rw [this]; decide
  · exact h2.1 (by decide)
  · exact h1.2.2.2 "grp - pt" " - pg" (by decide)

/-! ## Host world model -/

/-- Result of the host `QgsProviderRegistry.decodeUri` for a
(provider, source) pair; `hasUrl` models the presence of the "url" key. -/
structure Decoded where
  path : String := ""
  layerName : String := ""
  hasUrl : Bool := false
deriving DecidableEq, Repr

/-- A `QgsLayerTreeLayer` node of the layer tree; `nid` is the node's
identity (Python compares the wrapper objects), `layerId` the id of the
layer that `node.layer()` resolves to (`none` when unresolved). -/
structure Node where
  nid : Nat
  layerId : Option String := none
deriving DecidableEq, Repr

/-- A node of the layer tree view selection (general.py). -/
inductive TreeNode where
  | group (name : String) (children : List TreeNode)
  | layerNode (layer : Option Layer)
  | otherNode
deriving Repr

/-- The two exception classes of logs_and_errors.py. -/
inductive PluginError where
  | runtime
  | user
deriving DecidableEq, Repr

/-- The host state an action runs against: the open project, its layer
tree, the provider registry and the on-disk GeoPackages, plus the host
replies (message-box answer, writer outcomes) that are outside the
plugin's control. -/
structure World where
  projectFile : String := ""
  mapLayers : List Layer := []
  nodes : List Node := []
  decodeUri : String → String → Decoded := fun _ _ => {}
  selectedNodes : List TreeNode := []
  layerOrder : List Layer := []
  gpkgFiles : GpkgFS := []
  userAccepts : Bool := true
  vectorWriteOk : Layer → Bool := fun _ => true
  rasterWriteOk : Layer → Bool := fun _ => true
  lastRename : Option (List (String × String × String)) := none
  ifaceOk : Bool := true
  treeViewOk : Bool := true
  rootOk : Bool := true

/-- `project.mapLayer(lid)` (layer ids are unique in a project). -/
def World.mapLayer (w : World) (lid : String) : Option Layer :=
  w.mapLayers.find? (fun l => l.id = lid)

/-- `root.findLayer(lid)`. -/
def World.findLayer (w : World) (lid : String) : Option Node :=
  w.nodes.find? (fun n => n.layerId = some lid)

/-! ## general.py `get_selected_layers` -/

mutual

/-- `node.findLayers()` on a group: every descendant layer node, in
depth-first order; each entry is the `layer()` of that node. -/
def findLayersOf : TreeNode → List (Option Layer)
  | .group _ cs => findLayersOfList cs
  | .layerNode l => [l]
  | .otherNode => []

def findLayersOfList : List TreeNode → List (Option Layer)
  | [] => []
  | t :: ts => findLayersOf t ++ findLayersOfList ts

end

/-- The collection loop of `get_selected_layers`: groups contribute all
their (non-null) descendant layers, layer nodes their own layer, other
node types are logged and skipped. -/
def collectSelectedLayers (nodes : List TreeNode) : List Layer :=
  nodes.flatMap fun n =>
    match n with
    | .group nm cs => (findLayersOf (.group nm cs)).filterMap id
    | .layerNode (some l) => [l]
    | .layerNode none => []
    | .otherNode => []

/-- `order_map.get(layer.id(), inf)`: the dict comprehension keeps the
last index of a duplicated id; ids absent from the layer order map to
`order.length`, which is strictly larger than every present index and
so plays the role of `float("inf")` in the comparisons. -/
def orderKey (order : List Layer) (l : Layer) : Nat :=
  (((order.enum.filter (fun p => p.2.id = l.id)).getLast?).map (fun p => p.1)).getD
    order.length

/-- general.py `get_selected_layers`. -/
def get_selected_layers (w : World) : Except PluginError (List Layer) :=
  if ¬w.ifaceOk then .error .runtime
  else if ¬w.treeViewOk then .error .runtime
  else if w.selectedNodes.isEmpty then .error .user
  else
    let selected := (collectSelectedLayers w.selectedNodes).dedup
    if w.rootOk then
      .ok (selected.insertionSort
        (fun a b => orderKey w.layerOrder a ≤ orderKey w.layerOrder b))
    else .ok selected

/-- Claim C3: `get_selected_layers` deduplicates — every layer occurs at
most once in the returned list even when the selection holds a group and
layers inside it — the result holds exactly the layers collected from
the selection, and (when the layer tree root is available) it is sorted
by the layers' position in the project layer order. -/
theorem C3_get_selected_layers (w : World) (out : List Layer)
    (hroot : w.rootOk = true)
    (h : get_selected_layers w = .ok out) :
    out.Nodup ∧
    (∀ l, l ∈ out ↔ l ∈ collectSelectedLayers w.selectedNodes) ∧
    out.Sorted (fun a b => orderKey w.layerOrder a ≤ orderKey w.layerOrder b) := by
  unfold get_selected_layers at h
  by_cases hif : w.ifaceOk
  · rw [if_neg (by simp [hif])] at h
    by_cases htv : w.treeViewOk
    · rw [if_neg (by simp [htv])] at h
      by_cases hsel : w.selectedNodes.isEmpty
      · rw [if_pos hsel] at h; cases h
      · rw [if_neg hsel, if_pos hroot] at h
        have hout : out = (collectSelectedLayers w.selectedNodes).dedup.insertionSort
            (fun a b => orderKey w.layerOrder a ≤ orderKey w.layerOrder b) := by
          cases h; rfl
        subst hout
        refine ⟨?_, ?_, ?_⟩
        · exact (List.perm_insertionSort _ _).symm.nodup (List.nodup_dedup _)
        · intro l
          rw [List.mem_insertionSort, List.mem_dedup]
        · have htot : IsTotal Layer
              (fun a b => orderKey w.layerOrder a ≤ orderKey w.layerOrder b) :=
            ⟨fun a b => Nat.le_total _ _⟩
          have htra : IsTrans Layer
              (fun a b => orderKey w.layerOrder a ≤ orderKey w.layerOrder b) :=
            ⟨fun _ _ _ hab hbc => Nat.le_trans hab hbc⟩
          exact @List.sorted_insertionSort Layer _ _ htot htra _
    · rw [if_pos (by simp [htv])] at h; cases h
  · rw [if_pos (by simp [hif])] at h; cases h

/-- Witness for `C3_get_selected_layers`: the selection holds a group
with layers a and b and, additionally, layer a itself; a occurs once in
the result and the result follows the project layer order (b before a). -/
theorem C3_get_selected_layers_witness :
    let la : Layer := { id := "a" }
    let lb : Layer := { id := "b" }
    let w : World :=
      { selectedNodes :=
          [TreeNode.group "g" [TreeNode.layerNode (some la),
                               TreeNode.layerNode (some lb)],
           TreeNode.layerNode (some la)],
        layerOrder := [lb, la] }
    get_selected_layers w = .ok [lb, la] ∧ ([lb, la] : List Layer).Nodup := by
  intro la lb w
  refine ⟨rfl, ?_⟩
  have h := C3_get_selected_layers w [lb, la] rfl rfl
  exact h.1

/-! ## src/__init__.py and src/UTEC_layer_tools.py (plugin lifecycle)

The host Qt objects (QMenu, QAction, QToolButton) are modelled by their
button keys; the two indicator managers by activity flags. -/

/-- The plugin object `UTECLayerTools`. -/
structure UTECLayerTools where
  iface : Nat
  actions : List String := []
  pluginMenu : Option (List String) := none
  indicatorManagerActive : Bool := false
  gpkgIndicatorManagerActive : Bool := false
deriving DecidableEq, Repr

/-- `UTECLayerTools.__init__`: stores the interface; menu, actions and
managers are created only later, in `initGui`. -/
def UTECLayerTools.construct (iface : Nat) : UTECLayerTools :=
  { iface := iface }

/-- src/__init__.py `classFactory`: returns `UTECLayerTools(iface)`. -/
def classFactory (iface : Nat) : UTECLayerTools :=
  UTECLayerTools.construct iface

/-- The five menu entries `initGui` creates, in creation order. -/
def menuActionKeys : List String :=
  ["copy_layers", "rename_layers", "undo_rename", "rename_and_copy", "shipping"]

/-- `UTECLayerTools.initGui`: builds the plugin menu with its five
actions, appends the five actions and the toolbar button to
`self.actions`, and starts both indicator managers. -/
def UTECLayerTools.initGui (p : UTECLayerTools) : UTECLayerTools :=
  { p with
    pluginMenu := some menuActionKeys,
    actions := p.actions ++ menuActionKeys ++ ["toolbar_button"],
    indicatorManagerActive := true,
    gpkgIndicatorManagerActive := true }

/-- `UTECLayerTools.unload`: stops both managers, removes every action
and drops the plugin menu. -/
def UTECLayerTools.unload (p : UTECLayerTools) : UTECLayerTools :=
  { p with
    indicatorManagerActive := false,
    gpkgIndicatorManagerActive := false,
    actions := [],
    pluginMenu := none }

/-- Claim C6: `classFactory iface` returns the `UTECLayerTools` instance
built from `iface`, and that object provides the lifecycle hooks:
`initGui` populates the menu, the actions and the managers, and `unload`
tears all of them down again. -/
theorem C6_classFactory_lifecycle (iface : Nat) :
    classFactory iface = UTECLayerTools.construct iface ∧
    (classFactory iface).iface = iface ∧
    (classFactory iface).actions = [] ∧
    (classFactory iface).initGui.pluginMenu = some menuActionKeys ∧
    (classFactory iface).initGui.indicatorManagerActive = true ∧
    (classFactory iface).initGui.gpkgIndicatorManagerActive = true ∧
    (classFactory iface).initGui.actions = menuActionKeys ++ ["toolbar_button"] ∧
    (classFactory iface).initGui.unload.actions = [] ∧
    (classFactory iface).initGui.unload.pluginMenu = none ∧
    (classFactory iface).initGui.unload.indicatorManagerActive = false ∧
    (classFactory iface).initGui.unload.gpkgIndicatorManagerActive = false := by
  refine ⟨rfl, rfl, rfl, rfl, rfl, rfl, rfl, rfl, rfl, rfl, rfl⟩

/-! ## rename.py `undo_rename_layers` -/

/-- `project.mapLayer` on an explicit layer list. -/
def findLayerById (ls : List Layer) (lid : String) : Option Layer :=
  ls.find? (fun l => l.id = lid)

/-- `layer.setName(name)`: rename the layer with the given id. -/
def setLayerName (ls : List Layer) (lid nm : String) : List Layer :=
  ls.map fun l => if l.id = lid then { l with name := nm } else l

/-- The mutable `ActionResults` of `undo_rename_layers` together with the
project layer list the loop acts on.  Skip entries carry
`(old_name, current layer name)`, error entries `(new_name, old_name)`
(the embedded data of the logged `Issue` strings). -/
structure UndoAcc where
  layers : List Layer
  successes : List String := []
  skips : List (String × String) := []
  errors : List (String × String) := []
  processed : List String := []
deriving DecidableEq, Repr

/-- One iteration of the `for layer_id, old_name, new_name` loop. -/
def undoStep (acc : UndoAcc) (t : String × String × String) : UndoAcc :=
  let acc1 := { acc with processed := acc.processed ++ [t.2.2] }
  match findLayerById acc1.layers t.1 with
  | none => { acc1 with errors := acc1.errors ++ [(t.2.2, t.2.1)] }
  | some layer =>
    if layer.name ≠ t.2.2 then
      { acc1 with skips := acc1.skips ++ [(t.2.1, layer.name)] }
    else
      { acc1 with layers := setLayerName acc1.layers t.1 t.2.1,
                  successes := acc1.successes ++ [t.2.2] }

/-- The results accumulated by the loop of `undo_rename_layers`. -/
def undoRunAcc (w : World) (hist : List (String × String × String)) : UndoAcc :=
  hist.foldl undoStep { layers := w.mapLayers }

/-- The project state after `undo_rename_layers`: renamed layers, and
the "last_rename" entry removed when any revert succeeded or was
skipped. -/
def undoRunWorld (w : World) (hist : List (String × String × String)) : World :=
  { w with
    mapLayers := (undoRunAcc w hist).layers,
    lastRename :=
      if (undoRunAcc w hist).successes ≠ [] ∨ (undoRunAcc w hist).skips ≠ []
      then none else w.lastRename }

/-- rename.py `undo_rename_layers`.  `w.lastRename = none` models a
missing or empty "last_rename" project entry (the function raises); the
stored JSON round-trips losslessly and is kept structured here.  On
success the updated project and the results are returned. -/
def undo_rename_layers (w : World) : Except PluginError (World × UndoAcc) :=
  match w.lastRename with
  | none => .error .runtime
  | some hist => .ok (undoRunWorld w hist, undoRunAcc w hist)

theorem findLayerById_setLayerName_self {ls : List Layer} {lid : String}
    {l : Layer} (h : findLayerById ls lid = some l) (nm : String) :
    findLayerById (setLayerName ls lid nm) lid = some { l with name := nm } := by
  induction ls with
  | nil => cases h
  | cons a rest ih =>
    unfold findLayerById setLayerName at *
    by_cases ha : a.id = lid
    · rw [List.find?_cons_of_pos _ (by simp [ha])] at h
      cases h
      simp only [List.map_cons, if_pos ha]
      rw [List.find?_cons_of_pos _ (by simp [ha])]
    · rw [List.find?_cons_of_neg _ (by simp [ha])] at h
      simp only [List.map_cons, if_neg ha]
      rw [List.find?_cons_of_neg _ (by simp [ha])]
      exact ih h

theorem findLayerById_setLayerName_ne {ls : List Layer} {lid lid' : String}
    (hne : lid' ≠ lid) (nm : String) :
    findLayerById (setLayerName ls lid nm) lid' = findLayerById ls lid' := by
  induction ls with
  | nil => rfl
  | cons a rest ih =>
    unfold findLayerById setLayerName at *
    by_cases ha : a.id = lid
    · have hne2 : ¬ a.id = lid' := by
        rw [ha]; exact fun hc => hne hc.symm
      simp only [List.map_cons, if_pos ha]
      rw [List.find?_cons_of_neg _ (by simpa using hne2),
        List.find?_cons_of_neg _ (by simpa using hne2)]
      exact ih
    · simp only [List.map_cons, if_neg ha]
      by_cases hid : a.id = lid'
      · rw [List.find?_cons_of_pos _ (by simp [hid]),
          List.find?_cons_of_pos _ (by simp [hid])]
      · rw [List.find?_cons_of_neg _ (by simp [hid]),
          List.find?_cons_of_neg _ (by simp [hid])]
        exact ih

theorem undoStep_eq_error {acc : UndoAcc} {t : String × String × String}
    (hf : findLayerById acc.layers t.1 = none) :
    undoStep acc t = { acc with processed := acc.processed ++ [t.2.2],
                                errors := acc.errors ++ [(t.2.2, t.2.1)] } := by
  simp [undoStep, hf]

theorem undoStep_eq_skip {acc : UndoAcc} {t : String × String × String}
    {layer : Layer} (hf : findLayerById acc.layers t.1 = some layer)
    (hn : layer.name ≠ t.2.2) :
    undoStep acc t = { acc with processed := acc.processed ++ [t.2.2],
                                skips := acc.skips ++ [(t.2.1, layer.name)] } := by
  simp [undoStep, hf, hn]

theorem undoStep_eq_success {acc : UndoAcc} {t : String × String × String}
    {layer : Layer} (hf : findLayerById acc.layers t.1 = some layer)
    (hn : layer.name = t.2.2) :
    undoStep acc t = { acc with processed := acc.processed ++ [t.2.2],
                                layers := setLayerName acc.layers t.1 t.2.1,
                                successes := acc.successes ++ [t.2.2] } := by
  simp [undoStep, hf, hn]

/-- `undoStep` touches only the layer named by its own history entry. -/
theorem undoStep_preserve {acc : UndoAcc} {t : String × String × String}
    {lid : String} (h : lid ≠ t.1) :
    findLayerById (undoStep acc t).layers lid = findLayerById acc.layers lid := by
  cases hf : findLayerById acc.layers t.1 with
  | none => rw [undoStep_eq_error hf]
  | some layer =>
    by_cases hn : layer.name = t.2.2
    · rw [undoStep_eq_success hf hn]
      exact findLayerById_setLayerName_ne h t.2.1
    · rw [undoStep_eq_skip hf hn]

theorem undoStep_mono_skips {acc : UndoAcc} {t : String × String × String}
    {x : String × String} (h : x ∈ acc.skips) : x ∈ (undoStep acc t).skips := by
  cases hf : findLayerById acc.layers t.1 with
  | none => rw [undoStep_eq_error hf]; exact h
  | some layer =>
    by_cases hn : layer.name = t.2.2
    · rw [undoStep_eq_success hf hn]; exact h
    · rw [undoStep_eq_skip hf hn]
      exact List.mem_append_left _ h

theorem undoStep_mono_successes {acc : UndoAcc} {t : String × String × String}
    {x : String} (h : x ∈ acc.successes) : x ∈ (undoStep acc t).successes := by
  cases hf : findLayerById acc.layers t.1 with
  | none => rw [undoStep_eq_error hf]; exact h
  | some layer =>
    by_cases hn : layer.name = t.2.2
    · rw [undoStep_eq_success hf hn]
      exact List.mem_append_left _ h
    · rw [undoStep_eq_skip hf hn]; exact h

theorem undo_fold_preserve :
    ∀ (hist : List (String × String × String)) (acc : UndoAcc) (lid : String),
      lid ∉ hist.map (fun t => t.1) →
      findLayerById (hist.foldl undoStep acc).layers lid =
        findLayerById acc.layers lid := by
  intro hist
  induction hist with
  | nil => intro acc lid _; rfl
  | cons t rest ih =>
    intro acc lid hnot
    simp only [List.map_cons, List.mem_cons, not_or] at hnot
    rw [List.foldl_cons]
    rw [ih (undoStep acc t) lid hnot.2]
    exact undoStep_preserve hnot.1

theorem undo_fold_mono_skips :
    ∀ (hist : List (String × String × String)) (acc : UndoAcc)
      (x : String × String), x ∈ acc.skips →
      x ∈ (hist.foldl undoStep acc).skips := by
  intro hist
  induction hist with
  | nil => intro acc x h; exact h
  | cons t rest ih =>
    intro acc x h
    rw [List.foldl_cons]
    exact ih _ x (undoStep_mono_skips h)

theorem undo_fold_mono_successes :
    ∀ (hist : List (String × String × String)) (acc : UndoAcc)
      (x : String), x ∈ acc.successes →
      x ∈ (hist.foldl undoStep acc).successes := by
  intro hist
  induction hist with
  | nil => intro acc x h; exact h
  | cons t rest ih =>
    intro acc x h
    rw [List.foldl_cons]
    exact ih _ x (undoStep_mono_successes h)

/-- Per-entry behaviour of the undo loop when the history names each
layer at most once. -/
theorem undo_fold_entry :
    ∀ (hist : List (String × String × String)) (acc : UndoAcc),
      (hist.map (fun t => t.1)).Nodup →
      ∀ t ∈ hist, ∀ l, findLayerById acc.layers t.1 = some l →
        (l.name ≠ t.2.2 →
          findLayerById (hist.foldl undoStep acc).layers t.1 = some l ∧
          (t.2.1, l.name) ∈ (hist.foldl undoStep acc).skips) ∧
        (l.name = t.2.2 →
          findLayerById (hist.foldl undoStep acc).layers t.1 =
            some { l with name := t.2.1 } ∧
          t.2.2 ∈ (hist.foldl undoStep acc).successes) := by
  intro hist
  induction hist with
  | nil => intro acc _ t ht; cases ht
  | cons s rest ih =>
    intro acc hnd t ht l hl
    rw [List.map_cons] at hnd
    have hnd2 := List.nodup_cons.mp hnd
    have hnd' : (rest.map (fun t => t.1)).Nodup := hnd2.2
    have hshead : s.1 ∉ rest.map (fun t => t.1) := hnd2.1
    rw [List.foldl_cons]
    rcases List.mem_cons.mp ht with rfl | htr
    · constructor
      · intro hne
        rw [undoStep_eq_skip hl hne]
        constructor
        · rw [undo_fold_preserve rest _ t.1 hshead]
          exact hl
        · exact undo_fold_mono_skips rest _ _ (by simp)
      · intro heq
        rw [undoStep_eq_success hl heq]
        constructor
        · rw [undo_fold_preserve rest _ t.1 hshead]
          exact findLayerById_setLayerName_self hl t.2.1
        · exact undo_fold_mono_successes rest _ _ (by simp)
    · have htne : t.1 ≠ s.1 := by
        intro hc
        apply hshead
        rw [← hc]
        exact List.mem_map.mpr ⟨t, htr, rfl⟩
      have hl' : findLayerById (undoStep acc s).layers t.1 = some l := by
        rw [undoStep_preserve htne]
        exact hl
      exact ih (undoStep acc s) hnd' t htr l hl'

/-- Claim C8: undo is one-shot and respects later manual edits.
`undo_rename_layers` raises when no stored history exists; for each
recorded rename (layer ids pairwise distinct) of a layer still present,
the layer is reverted to its old name exactly when its current name
still equals the recorded new name, and is otherwise skipped with its
name left unchanged; and whenever at least one revert succeeded or was
skipped the stored history is removed, so an immediately repeated undo
raises. -/
theorem C8_undo_rename_layers (w : World) :
    (w.lastRename = none → undo_rename_layers w = .error .runtime) ∧
    (∀ hist, w.lastRename = some hist →
      (hist.map (fun t => t.1)).Nodup →
      ∃ w' acc, undo_rename_layers w = .ok (w', acc) ∧
        (∀ t ∈ hist, ∀ l, findLayerById w.mapLayers t.1 = some l →
          (l.name ≠ t.2.2 →
            findLayerById w'.mapLayers t.1 = some l ∧
            (t.2.1, l.name) ∈ acc.skips) ∧
          (l.name = t.2.2 →
            findLayerById w'.mapLayers t.1 = some { l with name := t.2.1 } ∧
            t.2.2 ∈ acc.successes)) ∧
        ((acc.successes ≠ [] ∨ acc.skips ≠ []) →
          w'.lastRename = none ∧
          undo_rename_layers w' = .error .runtime)) := by
  constructor
  · intro h
    unfold undo_rename_layers
    rw [h]
  · intro hist hsome hnd
    refine ⟨undoRunWorld w hist, undoRunAcc w hist, ?_, ?_, ?_⟩
    · unfold undo_rename_layers
      rw [hsome]
    · intro t ht l hl
      exact undo_fold_entry hist { layers := w.mapLayers } hnd t ht l hl
    · intro hne
      have hlast : (undoRunWorld w hist).lastRename = none := by
        unfold undoRunWorld
        simp only [if_pos hne]
      refine ⟨hlast, ?_⟩
      unfold undo_rename_layers
      rw [hlast]

/-- Witness for `C8_undo_rename_layers`: layer "a" still carries the
recorded name "new" and is reverted to "old"; layer "b" was manually
renamed to "other" since and is skipped; the history is cleared and a
second undo raises. -/
theorem C8_undo_rename_layers_witness :
    let la : Layer := { id := "a", name := "new" }
    let lb : Layer := { id := "b", name := "other" }
    let w : World :=
      { mapLayers := [la, lb],
        lastRename := some [("a", "old", "new"), ("b", "oldb", "newb")] }
    ∃ w' acc, undo_rename_layers w = .ok (w', acc) ∧
      findLayerById w'.mapLayers "a" = some { la with name := "old" } ∧
      findLayerById w'.mapLayers "b" = some lb ∧
      "new" ∈ acc.successes ∧ ("oldb", "other") ∈ acc.skips ∧
      w'.lastRename = none ∧ undo_rename_layers w' = .error .runtime := by
  intro la lb w
  obtain ⟨w', acc, hok, hentries, hclear⟩ :=
    (C8_undo_rename_layers w).2 [("a", "old", "new"), ("b", "oldb", "newb")]
      rfl (by decide)
  refine ⟨w', acc, hok, ?_, ?_, ?_, ?_, ?_, ?_⟩
  · exact ((hentries ("a", "old", "new") (by decide) la rfl).2 rfl).1
  · exact ((hentries ("b", "oldb", "newb") (by decide) lb rfl).1 (by decide)).1
  · exact ((hentries ("a", "old", "new") (by decide) la rfl).2 rfl).2
  · exact ((hentries ("b", "oldb", "newb") (by decide) lb rfl).1 (by decide)).2
  · exact (hclear (Or.inl (by
      have := ((hentries ("a", "old", "new") (by decide) la rfl).2 rfl).2
      intro hc
      rw [hc] at this
      cases this))).1
  · exact (hclear (Or.inl (by
      have := ((hentries ("a", "old", "new") (by decide) la rfl).2 rfl).2
      intro hc
      rw [hc] at this
      cases this))).2

/-! ## String scanning helpers (kernel-reducible char-list versions of
the Python `in`, `split`, `lower` and `pathlib` operations) -/

def listIsInfixOf (needle : List Char) : List Char → Bool
  | [] => needle.isEmpty
  | c :: t => needle.isPrefixOf (c :: t) || listIsInfixOf needle t

/-- Python `needle in hay`. -/
def strContains (hay needle : String) : Bool :=
  listIsInfixOf needle.data hay.data

/-- `str.split(sep)` for a one-character separator. -/
def splitOnCharCL (sep : Char) : List Char → List (List Char)
  | [] => [[]]
  | c :: rest =>
    let r := splitOnCharCL sep rest
    if c = sep then [] :: r
    else
      match r with
      | [] => [[c]]
      | h :: t => (c :: h) :: t

/-- `str.split(sep)` for a multi-character separator (fuel-structural so
concrete instances reduce in the kernel; the fuel is the text length,
always sufficient because every step consumes at least one character). -/
def splitOnStrAux (sep : List Char) : Nat → List Char → List (List Char)
  | _, [] => [[]]
  | 0, l => [l]
  | fuel + 1, c :: rest =>
    if sep.isPrefixOf (c :: rest) ∧ sep ≠ [] then
      [] :: splitOnStrAux sep fuel ((c :: rest).drop sep.length)
    else
      match splitOnStrAux sep fuel rest with
      | [] => [[c]]
      | h :: t => (c :: h) :: t

def splitOnStrCL (sep l : List Char) : List (List Char) :=
  splitOnStrAux sep l.length l

/-- `os.path.normcase`: case-folds the path (the identity on POSIX; we
model the case-normalisation, which is all the code relies on). -/
def normcase (s : String) : String :=
  String.mk (s.data.map Char.toLower)

/-- `str(p).lower().replace("\\", "/")` from
`_get_gpkg_layer_dependencies` (ASCII lower-casing). -/
def lowerSlash (s : String) : String :=
  String.mk (s.data.map (fun c => if c = '\\' then '/' else Char.toLower c))

/-- Drop the `pathlib` suffix from a reversed file name: remove up to and
including the last dot, unless the dot is the leading character of the
name (hidden files have no suffix). -/
def dropExtRev : List Char → Option (List Char)
  | [] => none
  | c :: rest =>
    if c = '.' then (if rest.isEmpty then none else some rest)
    else dropExtRev rest

/-- `Path(p).with_suffix(".gpkg")` (context.py `project_gpkg`): the final
path component loses its extension and gains ".gpkg". -/
def withSuffixGpkg (p : String) : String :=
  let comps := splitOnCharCL '/' p.data
  let nameCL := (comps.getLast?).getD []
  let base :=
    match dropExtRev nameCL.reverse with
    | some restRev => restRev.reverse
    | none => nameCL
  String.mk (List.intercalate ['/'] (comps.dropLast ++ [base ++ ".gpkg".data]))

/-- `str(Path(p).parent)` ("." for a bare file name, like pathlib). -/
def parentDir (p : String) : String :=
  let comps := (splitOnCharCL '/' p.data).dropLast
  if comps.isEmpty then "." else String.mk (List.intercalate ['/'] comps)

/-- Replace-or-prepend on an association list (Python dict assignment;
insertion order is irrelevant to the plugin, which only ever looks maps
up by key or iterates sets of keys). -/
def setA {κ α : Type} [DecidableEq κ] (k : κ) (v : α) (m : List (κ × α)) :
    List (κ × α) :=
  (k, v) :: m.filter (fun p => p.1 ≠ k)

/-- `del m[k]` (no-op when absent, callers guard membership). -/
def eraseA {κ α : Type} [DecidableEq κ] (k : κ) (m : List (κ × α)) :
    List (κ × α) :=
  m.filter (fun p => p.1 ≠ k)

/-- `m.setdefault(k, []).append(v)`. -/
def pushA {κ α : Type} [DecidableEq κ] (k : κ) (v : α) :
    List (κ × List α) → List (κ × List α)
  | [] => [(k, [v])]
  | p :: r => if p.1 = k then (p.1, p.2 ++ [v]) :: r else p :: pushA k v r

/-! ## geopackage.py `add_layers_to_gpkg` and helpers -/

/-- The host file-system calls `add_layers_to_gpkg` performs, in order. -/
inductive GpkgEvent where
  | createGpkg (path : String)
  | writeVector (path : String) (table : String) (layerId : String)
  | dropRasterTable (path : String) (table : String)
  | writeRaster (path : String) (table : String) (layerId : String)
deriving DecidableEq, Repr

/-- geopackage.py `create_gpkg`: keep an existing file (unless asked to
replace it), otherwise let the GPKG driver create an empty one. -/
def create_gpkg (fs : GpkgFS) (gpkgPath : String) (deleteExisting : Bool) :
    GpkgFS × List GpkgEvent :=
  if (lookupA gpkgPath fs).isSome ∧ ¬deleteExisting then (fs, [])
  else (setA gpkgPath [] fs, [GpkgEvent.createGpkg gpkgPath])

/-- Effect of a successful `writeAsVectorFormatV3` /
`writer.writeRaster` call: create or overwrite the table. -/
def fsAddTable (fs : GpkgFS) (path table : String)
    (geom : Option GeometryType) : GpkgFS :=
  setA path (setA table geom ((lookupA path fs).getD [])) fs

/-- The `DROP TABLE IF EXISTS` of `add_raster_layer_to_gpkg`. -/
def fsDropTable (fs : GpkgFS) (path table : String) : GpkgFS :=
  setA path (eraseA table ((lookupA path fs).getD [])) fs

/-- geopackage.py `add_vector_layer_to_gpkg`: resolve the target table
name, call the vector writer (outcome is host-determined,
`w.vectorWriteOk`), and report success.  A failed write leaves the
modelled file unchanged. -/
def add_vector_layer_to_gpkg (w : World) (fs : GpkgFS) (gpkgPath : String)
    (l : Layer) (existing : Option (List String)) :
    GpkgFS × List GpkgEvent × Bool :=
  let tname := check_existing_layer fs gpkgPath l existing
  let ok := w.vectorWriteOk l
  (if ok then fsAddTable fs gpkgPath tname (some l.geomType) else fs,
   [GpkgEvent.writeVector gpkgPath tname l.id], ok)

/-- geopackage.py `add_raster_layer_to_gpkg`: reject non-raster layers,
drop any stale table, then call the raster writer.  A raster table does
not load as a vector layer, hence geometry `none`. -/
def add_raster_layer_to_gpkg (w : World) (fs : GpkgFS) (gpkgPath : String)
    (l : Layer) (existing : Option (List String)) :
    GpkgFS × List GpkgEvent × Bool :=
  if l.kind ≠ LayerKind.raster then (fs, [], false)
  else
    let tname := check_existing_layer fs gpkgPath l existing
    let fs1 := fsDropTable fs gpkgPath tname
    let ok := w.rasterWriteOk l
    (if ok then fsAddTable fs1 gpkgPath tname none else fs1,
     [GpkgEvent.dropRasterTable gpkgPath tname,
      GpkgEvent.writeRaster gpkgPath tname l.id], ok)

/-- `source.split("|layername=")[1].split("|")[0]`. -/
def sourceLayerNameOf (src : String) : String :=
  match splitOnStrCL "|layername=".data src.data with
  | _ :: second :: _ => String.mk ((splitOnCharCL '|' second).headD [])
  | _ => ""

/-- geopackage.py `_get_gpkg_layer_dependencies`: table name → names of
project layers sourcing that table of the GeoPackage. -/
def gpkgDependencies (w : World) (gpkgPath : String) :
    List (String × List String) :=
  let norm := lowerSlash gpkgPath
  w.mapLayers.foldl
    (fun deps layer =>
      if ¬layer.valid then deps
      else
        let d := w.decodeUri layer.providerType layer.source
        let uriPath :=
          if d.path ≠ "" then d.path
          else String.mk ((splitOnCharCL '|' layer.source.data).headD [])
        if lowerSlash uriPath = norm then
          let tname :=
            if d.layerName ≠ "" then d.layerName
            else if strContains layer.source "|layername=" then
              sourceLayerNameOf layer.source
            else if strContains layer.source ":" then
              (let parts := splitOnCharCL ':' layer.source.data
               if 3 ≤ parts.length then String.mk ((parts.getLast?).getD [])
               else "")
            else ""
          if tname ≠ "" then pushA tname layer.name deps else deps
        else deps)
    []

/-- geopackage.py `_confirm_overwrites`: ask the user only when a table
about to be overwritten is used by a project layer; the reply of the
`QMessageBox` is host state (`w.userAccepts`). -/
def confirmOverwrites (w : World) (fs : GpkgFS) (layers : List Layer)
    (gpkgPath : String) (existing : List String) : Bool :=
  let potential := (layers.filterMap (fun l =>
    if strContains l.source "url=" then none
    else
      let tname := check_existing_layer fs gpkgPath l (some existing)
      if tname ∈ existing then some tname else none)).dedup
  if potential.isEmpty then true
  else
    let deps := gpkgDependencies w gpkgPath
    let used := potential.filter (fun t => (lookupA t deps).isSome)
    if used.isEmpty then true
    else w.userAccepts

/-- The evolving `ActionResults` of `add_layers_to_gpkg` together with
the modelled file system and the host calls made so far.  `mapping` is
`results.result` (layer id → name in the GeoPackage). -/
structure GpkgRun where
  fs : GpkgFS
  events : List GpkgEvent
  mapping : List (String × String) := []
  successes : List String := []
  skips : List String := []
  errors : List String := []
  processed : List String := []
  cancelled : Bool := false
deriving DecidableEq, Repr

/-- One iteration of the layer loop of `add_layers_to_gpkg`; the second
component threads the `existing_layers` name cache. -/
def addLayerStep (w : World) (gpkgPath : String)
    (acc : GpkgRun × List String) (l : Layer) : GpkgRun × List String :=
  let run := { acc.1 with processed := acc.1.processed ++ [l.name] }
  let existing := acc.2
  if strContains l.source "url=" then
    ({ run with mapping := run.mapping ++ [(l.id, l.name)],
                skips := run.skips ++ [l.name] }, existing)
  else
    let tname := check_existing_layer run.fs gpkgPath l (some existing)
    match l.kind with
    | LayerKind.vector =>
      let res := add_vector_layer_to_gpkg w run.fs gpkgPath l (some existing)
      if res.2.2 then
        ({ run with fs := res.1, events := run.events ++ res.2.1,
                    successes := run.successes ++ [tname],
                    mapping := run.mapping ++ [(l.id, tname)] },
         if tname ∈ existing then existing else existing ++ [tname])
      else
        ({ run with fs := res.1, events := run.events ++ res.2.1,
                    errors := run.errors ++ [tname] }, existing)
    | LayerKind.raster =>
      let res := add_raster_layer_to_gpkg w run.fs gpkgPath l (some existing)
      if res.2.2 then
        ({ run with fs := res.1, events := run.events ++ res.2.1,
                    successes := run.successes ++ [tname],
                    mapping := run.mapping ++ [(l.id, tname)] },
         if tname ∈ existing then existing else existing ++ [tname])
      else
        ({ run with fs := res.1, events := run.events ++ res.2.1,
                    errors := run.errors ++ [tname] }, existing)
    | LayerKind.other =>
      ({ run with errors := run.errors ++ [tname] }, existing)

/-- geopackage.py `add_layers_to_gpkg`.  Optional arguments default to
the current selection and the project GeoPackage (context.py
`project_gpkg`, which raises a user error when the project is unsaved). -/
def add_layers_to_gpkg (w : World) (layersArg : Option (List Layer))
    (gpkgPathArg : Option String) : Except PluginError GpkgRun :=
  let pathRes : Except PluginError String :=
    match gpkgPathArg with
    | some p => .ok p
    | none =>
      if w.projectFile = "" then .error .user
      else .ok (withSuffixGpkg w.projectFile)
  match pathRes with
  | .error e => .error e
  | .ok gpkgPath =>
    let cg := create_gpkg w.gpkgFiles gpkgPath false
    let layersRes : Except PluginError (List Layer) :=
      match layersArg with
      | some ls => .ok ls
      | none => get_selected_layers w
    match layersRes with
    | .error e => .error e
    | .ok layers =>
      let existing := get_gpkg_layer_names cg.1 gpkgPath
      if confirmOverwrites w cg.1 layers gpkgPath existing then
        .ok (layers.foldl (addLayerStep w gpkgPath)
          ({ fs := cg.1, events := cg.2 }, existing)).1
      else
        .ok { fs := cg.1, events := cg.2, cancelled := true,
              errors := ["User Cancelled"] }

theorem confirmOverwrites_of_accepts {w : World} {fs : GpkgFS}
    {layers : List Layer} {gpkgPath : String} {existing : List String}
    (h : w.userAccepts = true) :
    confirmOverwrites w fs layers gpkgPath existing = true := by
  simp only [confirmOverwrites]
  split
  · rfl
  · split
    · rfl
    · exact h

/-- Each loop step only appends to the event log. -/
theorem addLayerStep_events_mono (w : World) (gpkgPath : String)
    (acc : GpkgRun × List String) (l : Layer) :
    ∃ t, (addLayerStep w gpkgPath acc l).1.events = acc.1.events ++ t := by
  unfold addLayerStep
  split
  · exact ⟨[], by simp⟩
  · cases l.kind <;> simp only
    · split
      · exact ⟨_, rfl⟩
      · exact ⟨_, rfl⟩
    · split
      · exact ⟨_, rfl⟩
      · exact ⟨_, rfl⟩
    · exact ⟨[], by simp⟩

theorem addFold_events_mono (w : World) (gpkgPath : String) :
    ∀ (ls : List Layer) (acc : GpkgRun × List String),
      ∃ t, (ls.foldl (addLayerStep w gpkgPath) acc).1.events =
        acc.1.events ++ t := by
  intro ls
  induction ls with
  | nil => exact fun acc => ⟨[], by simp⟩
  | cons l rest ih =>
    intro acc
    rw [List.foldl_cons]
    obtain ⟨t1, h1⟩ := addLayerStep_events_mono w gpkgPath acc l
    obtain ⟨t2, h2⟩ := ih (addLayerStep w gpkgPath acc l)
    exact ⟨t1 ++ t2, by rw [h2, h1, List.append_assoc]⟩

/-- A non-web vector layer's step appends exactly its vector write
call to the event log. -/
theorem addLayerStep_vector_events (w : World) (gpkgPath : String)
    (acc : GpkgRun × List String) (l : Layer)
    (hurl : strContains l.source "url=" = false)
    (hkind : l.kind = LayerKind.vector) :
    (addLayerStep w gpkgPath acc l).1.events =
      acc.1.events ++ [GpkgEvent.writeVector gpkgPath
        (check_existing_layer acc.1.fs gpkgPath l (some acc.2)) l.id] := by
  simp only [addLayerStep, add_vector_layer_to_gpkg, hurl, hkind,
    Bool.false_eq_true, if_false]
  split <;> rfl

/-- A non-web raster layer's step appends the stale-table drop and its
raster write call to the event log. -/
theorem addLayerStep_raster_events (w : World) (gpkgPath : String)
    (acc : GpkgRun × List String) (l : Layer)
    (hurl : strContains l.source "url=" = false)
    (hkind : l.kind = LayerKind.raster) :
    (addLayerStep w gpkgPath acc l).1.events =
      acc.1.events ++
        [GpkgEvent.dropRasterTable gpkgPath
          (check_existing_layer acc.1.fs gpkgPath l (some acc.2)),
         GpkgEvent.writeRaster gpkgPath
          (check_existing_layer acc.1.fs gpkgPath l (some acc.2)) l.id] := by
  simp only [addLayerStep, add_raster_layer_to_gpkg, hurl, hkind,
    Bool.false_eq_true, if_false, ne_eq, not_true_eq_false, ite_false]
  split <;> rfl

theorem addLayerStep_emits_vector (w : World) (gpkgPath : String)
    (acc : GpkgRun × List String) (l : Layer)
    (hurl : strContains l.source "url=" = false)
    (hkind : l.kind = LayerKind.vector) :
    ∃ t, GpkgEvent.writeVector gpkgPath t l.id ∈
      (addLayerStep w gpkgPath acc l).1.events := by
  refine ⟨check_existing_layer acc.1.fs gpkgPath l (some acc.2), ?_⟩
  rw [addLayerStep_vector_events w gpkgPath acc l hurl hkind]
  exact List.mem_append_right _ (by simp)

theorem addLayerStep_emits_raster (w : World) (gpkgPath : String)
    (acc : GpkgRun × List String) (l : Layer)
    (hurl : strContains l.source "url=" = false)
    (hkind : l.kind = LayerKind.raster) :
    ∃ t, GpkgEvent.writeRaster gpkgPath t l.id ∈
      (addLayerStep w gpkgPath acc l).1.events := by
  refine ⟨check_existing_layer acc.1.fs gpkgPath l (some acc.2), ?_⟩
  rw [addLayerStep_raster_events w gpkgPath acc l hurl hkind]
  exact List.mem_append_right _ (by simp)

theorem addFold_event_mem (w : World) (gpkgPath : String) :
    ∀ (ls : List Layer) (acc : GpkgRun × List String) (e : GpkgEvent),
      e ∈ acc.1.events → e ∈ (ls.foldl (addLayerStep w gpkgPath) acc).1.events := by
  intro ls
  induction ls with
  | nil => exact fun acc e he => he
  | cons l rest ih =>
    intro acc e he
    rw [List.foldl_cons]
    apply ih
    obtain ⟨t, ht⟩ := addLayerStep_events_mono w gpkgPath acc l
    rw [ht]
    exact List.mem_append_left _ he

theorem addFold_emits (w : World) (gpkgPath : String) :
    ∀ (ls : List Layer) (acc : GpkgRun × List String) (l : Layer), l ∈ ls →
      strContains l.source "url=" = false →
      ((l.kind = LayerKind.vector →
        ∃ t, GpkgEvent.writeVector gpkgPath t l.id ∈
          (ls.foldl (addLayerStep w gpkgPath) acc).1.events) ∧
       (l.kind = LayerKind.raster →
        ∃ t, GpkgEvent.writeRaster gpkgPath t l.id ∈
          (ls.foldl (addLayerStep w gpkgPath) acc).1.events)) := by
  intro ls
  induction ls with
  | nil => intro acc l hl; cases hl
  | cons a rest ih =>
    intro acc l hl hurl
    rw [List.foldl_cons]
    rcases List.mem_cons.mp hl with rfl | hl'
    · constructor
      · intro hkind
        obtain ⟨t, ht⟩ := addLayerStep_emits_vector w gpkgPath acc l hurl hkind
        exact ⟨t, addFold_event_mem w gpkgPath rest _ _ ht⟩
      · intro hkind
        obtain ⟨t, ht⟩ := addLayerStep_emits_raster w gpkgPath acc l hurl hkind
        exact ⟨t, addFold_event_mem w gpkgPath rest _ _ ht⟩
    · exact ih (addLayerStep w gpkgPath acc a) l hl' hurl

/-- Claim C4: called by `copy_layers_to_gpkg` with no arguments,
`add_layers_to_gpkg` operates on the GeoPackage at the project file path
with its suffix replaced by ".gpkg"; when that file does not exist its
creation is the first host call; and a write call into that GeoPackage
is issued for every selected non-web-service vector or raster layer. -/
theorem C4_add_layers_to_gpkg (w : World) (sel : List Layer)
    (hproj : ¬ w.projectFile = "")
    (hsel : get_selected_layers w = .ok sel)
    (haccept : w.userAccepts = true) :
    ∃ run, add_layers_to_gpkg w none none = .ok run ∧
      run.cancelled = false ∧
      ((lookupA (withSuffixGpkg w.projectFile) w.gpkgFiles).isSome = false →
        run.events.head? =
          some (GpkgEvent.createGpkg (withSuffixGpkg w.projectFile))) ∧
      (∀ l ∈ sel, strContains l.source "url=" = false →
        (l.kind = LayerKind.vector →
          ∃ t, GpkgEvent.writeVector (withSuffixGpkg w.projectFile) t l.id
            ∈ run.events) ∧
        (l.kind = LayerKind.raster →
          ∃ t, GpkgEvent.writeRaster (withSuffixGpkg w.projectFile) t l.id
            ∈ run.events)) := by
  unfold add_layers_to_gpkg
  rw [if_neg hproj, hsel]
  simp only
  rw [confirmOverwrites_of_accepts haccept]
  simp only [if_true]
  refine ⟨_, rfl, ?_, ?_, ?_⟩
  · -- cancelled stays false: the loop never sets it
    have hstep : ∀ (ls : List Layer) (acc : GpkgRun × List String),
        acc.1.cancelled = false →
        ((ls.foldl (addLayerStep w (withSuffixGpkg w.projectFile)) acc).1).cancelled
          = false := by
      intro ls
      induction ls with
      | nil => exact fun acc h => h
      | cons a rest ih =>
        intro acc h
        rw [List.foldl_cons]
        apply ih
        unfold addLayerStep
        split
        · exact h
        · cases a.kind <;> simp only
          · split <;> exact h
          · split <;> exact h
          · exact h
    exact hstep sel _ rfl
  · intro hnew
    obtain ⟨t, ht⟩ := addFold_events_mono w (withSuffixGpkg w.projectFile) sel
      ({ fs := (create_gpkg w.gpkgFiles (withSuffixGpkg w.projectFile) false).1,
         events := (create_gpkg w.gpkgFiles (withSuffixGpkg w.projectFile) false).2 },
       get_gpkg_layer_names
         (create_gpkg w.gpkgFiles (withSuffixGpkg w.projectFile) false).1
         (withSuffixGpkg w.projectFile))
    rw [ht]
    have hcg : (create_gpkg w.gpkgFiles (withSuffixGpkg w.projectFile) false).2 =
        [GpkgEvent.createGpkg (withSuffixGpkg w.projectFile)] := by
      unfold create_gpkg
      rw [if_neg (by simp [hnew])]
    simp only [hcg]
    rfl
  · intro l hl hurl
    exact addFold_emits w (withSuffixGpkg w.projectFile) sel _ l hl hurl

/-- Witness for `C4_add_layers_to_gpkg`: one selected point layer, no
GeoPackage on disk yet; the file "dir/proj.gpkg" is created first and
then receives the vector write for the layer. -/
theorem C4_add_layers_to_gpkg_witness :
    let lv : Layer := { id := "v1", name := "roads", source := "dir/roads.shp" }
    let w : World :=
      { projectFile := "dir/proj.qgz",
        mapLayers := [lv],
        selectedNodes := [TreeNode.layerNode (some lv)],
        layerOrder := [lv] }
    ∃ run, add_layers_to_gpkg w none none = .ok run ∧
      run.cancelled = false ∧
      run.events.head? = some (GpkgEvent.createGpkg "dir/proj.gpkg") ∧
      ∃ t, GpkgEvent.writeVector "dir/proj.gpkg" t "v1" ∈ run.events := by
  intro lv w
  obtain ⟨run, hok, hcanc, hcreate, hwrites⟩ :=
    C4_add_layers_to_gpkg w [lv] (by decide) rfl rfl
  refine ⟨run, hok, hcanc, ?_, ?_⟩
  · have hpath : withSuffixGpkg w.projectFile = "dir/proj.gpkg" := by decide
    have := hcreate (by decide)
    rw [hpath] at this
    exact this
  · have hpath : withSuffixGpkg w.projectFile = "dir/proj.gpkg" := by decide
    have := ((hwrites lv (by decide) (by decide)).1 rfl)
    rw [hpath] at this
    exact this

/-! ## layer_location.py: location classification -/

/-- constants.py `LayerLocation` members. -/
inductive LayerLocation where
  | cloud
  | emptyLoc
  | external
  | folderNoGpkg
  | gpkgFolder
  | gpkgProject
  | unknownLoc
deriving DecidableEq, Repr

/-- A host `QIcon`: either a themed/file icon or one of the numbered
shared-source icons. -/
inductive IconRef where
  | themed (name : String)
  | multi (idx : Nat)
deriving DecidableEq, Repr

/-- The icon of each `LayerLocation` (constants.py `Icons` properties,
identified by their SVG file names). -/
def LayerLocation.icon : LayerLocation → IconRef
  | .cloud => .themed "location_cloud.svg"
  | .emptyLoc => .themed "location_empty.svg"
  | .external => .themed "location_external.svg"
  | .folderNoGpkg => .themed "location_folder_no_gpkg.svg"
  | .gpkgFolder => .themed "location_gpkg_folder.svg"
  | .gpkgProject => .themed "location_gpkg_project.svg"
  | .unknownLoc => .themed "location_unknown.svg"

/-- The tooltip of each `LayerLocation`: host-translated HTML, modelled
by its heading text (always a non-empty string). -/
def LayerLocation.tooltip : LayerLocation → String
  | .cloud => "Cloud Layer"
  | .emptyLoc => "Empty Layer"
  | .external => "Caution"
  | .folderNoGpkg => "Layer in Project Folder but not GeoPackage"
  | .gpkgFolder => "Layer in GeoPackge in Project Folder"
  | .gpkgProject => "Layer in Project-Geopackage"
  | .unknownLoc => "Data Source Unknown"

/-- ASCII `str.lower`. -/
def strLower (s : String) : String :=
  String.mk (s.data.map Char.toLower)

/-- layer_location.py `get_layer_source_path`: `none` for memory layers,
otherwise the normalised decoded path (falling back to the source up to
the first pipe). -/
def get_layer_source_path (w : World) (l : Layer) : Option String :=
  if "memory".data.isPrefixOf l.source.data then none
  else
    let d := w.decodeUri l.providerType l.source
    let uriPath :=
      if d.path ≠ "" then d.path
      else String.mk ((splitOnCharCL '|' l.source.data).headD [])
    some (normcase uriPath)

/-- layer_location.py `is_cloud_layer` (both call shapes decode the same
URI, so the optional pre-decoded argument is dropped). -/
def is_cloud_layer (w : World) (l : Layer) : Bool :=
  let d := w.decodeUri l.providerType l.source
  let lower := strLower l.source
  d.hasUrl || strContains lower "url=" ||
    ("http:".data.isPrefixOf lower.data || "https:".data.isPrefixOf lower.data)

/-- layer_location.py `get_layer_location`.  The provider registry and
project instance are host-available; `project_gpkg` cannot raise here
because the project file name was already checked to be non-empty. -/
def get_layer_location (w : World) (l : Layer) : Option LayerLocation :=
  if w.projectFile = "" ∨ "memory".data.isPrefixOf l.source.data then none
  else if is_cloud_layer w l then some .cloud
  else
    let projectGpkgPath := withSuffixGpkg w.projectFile
    let layerPath := (get_layer_source_path w l).getD ""
    let gpkg := normcase projectGpkgPath
    let projectFolder := normcase (parentDir projectGpkgPath)
    if strContains layerPath gpkg then some .gpkgProject
    else if strContains layerPath projectFolder then
      (if strEndsWith layerPath ".gpkg" || strEndsWith layerPath ".sqlite"
       then some .gpkgFolder else some .folderNoGpkg)
    else some .external

/-- general.py `is_empty_layer`: a vector layer with no features. -/
def is_empty_layer (l : Layer) : Bool :=
  l.kind = LayerKind.vector && l.featureCount = 0

/-! ## layer_location.py: indicators -/

/-- A `QgsLayerTreeViewIndicator`; freshly constructed instances have no
icon and no tooltip until `setIcon` / `setToolTip` are called. -/
structure Indicator where
  icon : Option IconRef := none
  tooltip : Option String := none
deriving DecidableEq, Repr

/-- A `view.addIndicator` / `view.removeIndicator` call on the layer
tree view. -/
structure IndicatorEvent where
  isAdd : Bool
  lid : String
  nid : Nat
  ind : Indicator
deriving DecidableEq, Repr

/-- `(icon index, sorted names of the layers sharing the source)`. -/
abbrev MultiInfo := Nat × List String

/-- Modelled from the spec: `ICONS.get_multi_icon(idx)` — the `Icons`
method is part of the repository but missing from the provided sources
(only its call site in `_add_multi_indicator` is present); per the spec
it yields the shared-data-source indicator icon for a group index. -/
def get_multi_icon (idx : Nat) : IconRef :=
  IconRef.multi idx

/-- layer_location.py `_create_multi_indicator_tooltip`: the HTML
skeleton with the source path and the list of sharing layer names (host
translation and project-relative path rendering abstracted to the raw
path text; no theorem looks inside this string). -/
def _create_multi_indicator_tooltip (w : World) (l : Layer)
    (sharedNames : List String) : String :=
  let sourcePath := (get_layer_source_path w l).getD ""
  "<p><b>Shared Data Source</b></p><p>" ++ sourcePath ++
    "</p><p>Used by:<ul>" ++
    String.join (sharedNames.map (fun n => "<li>" ++ n ++ "</li>")) ++
    "</ul></p>"

/-- layer_location.py `_add_empty_indicator` (icon and tooltip are set
before the indicator is handed to the view). -/
def _add_empty_indicator (l : Layer) : Option Indicator :=
  if ¬ is_empty_layer l then none
  else some { icon := some LayerLocation.emptyLoc.icon,
              tooltip := some LayerLocation.emptyLoc.tooltip }

/-- layer_location.py `_add_location_indicator`. -/
def _add_location_indicator (w : World) (l : Layer) : Option Indicator :=
  match get_layer_location w l with
  | none => none
  | some loc => some { icon := some loc.icon, tooltip := some loc.tooltip }

/-- layer_location.py `_add_multi_indicator`. -/
def _add_multi_indicator (w : World) (l : Layer) (multi : Option MultiInfo) :
    Option Indicator :=
  match multi with
  | none => none
  | some mi =>
    some { icon := some (get_multi_icon mi.1),
           tooltip := some (_create_multi_indicator_tooltip w l mi.2) }

/-- layer_location.py `add_location_indicator`: find the layer's node,
create the applicable indicators (empty, location, shared source — in
that order) and add each to the view; returns the list or `None` when
nothing was added.  The second component records the `addIndicator`
calls. -/
def add_location_indicator (w : World) (l : Layer) (multi : Option MultiInfo) :
    Option (List Indicator) × List IndicatorEvent :=
  match w.findLayer l.id with
  | none => (none, [])
  | some node =>
    let inds := (_add_empty_indicator l).toList ++
      (_add_location_indicator w l).toList ++
      (_add_multi_indicator w l multi).toList
    (if inds.isEmpty then none else some inds,
     inds.map (fun i => { isAdd := true, lid := l.id, nid := node.nid, ind := i }))

/-! ## layer_location.py: `LocationIndicatorManager` -/

/-- The mutable state of `LocationIndicatorManager`: the three dicts
`location_indicators`, `layer_locations` (cache of location, tree node
and shared-source info) and `shared_groups`. -/
structure MgrState where
  location_indicators : List (String × List Indicator) := []
  layer_locations :
    List (String × (Option LayerLocation × Option Node × Option MultiInfo)) := []
  shared_groups : List (String × MultiInfo) := []

/-- `_get_visible_layer_ids`: ids of the layers reachable from the layer
tree (a Python set; kept as a duplicate-free list). -/
def _get_visible_layer_ids (w : World) : List String :=
  (w.nodes.filterMap (fun n => n.layerId)).dedup

/-- Bool lexicographic comparison of character lists (Python string
comparison, used only through `sorted`). -/
def charListLe : List Char → List Char → Bool
  | [], _ => true
  | _ :: _, [] => false
  | a :: as, b :: bs =>
    if a.val < b.val then true
    else if b.val < a.val then false
    else charListLe as bs

def strLeB (a b : String) : Bool :=
  charListLe a.data b.data

/-- Python tuple comparison on the `(path, layer name)` source keys. -/
def keyLeB (a b : String × String) : Bool :=
  if a.1 = b.1 then strLeB a.2 b.2 else strLeB a.1 b.1

def insertSorted {α : Type} (le : α → α → Bool) (a : α) : List α → List α
  | [] => [a]
  | b :: t => if le a b then a :: b :: t else b :: insertSorted le a t

/-- Python `sorted` (stable insertion sort; only determinism matters to
the proofs). -/
def sortBy {α : Type} (le : α → α → Bool) : List α → List α
  | [] => []
  | a :: t => insertSorted le a (sortBy le t)

/-- `_calculate_shared_groups`: group the visible non-cloud layers by
`(normalised source path, sub-layer name)`, keep groups of two or more,
sort them by key for deterministic icon assignment, and map each member
layer id to its `(icon index, sorted member names)`. -/
def _calculate_shared_groups (w : World) (visible : List String) :
    List (String × MultiInfo) :=
  let sourceMap : List ((String × String) × List Layer) :=
    visible.foldl
      (fun m lid =>
        match w.mapLayer lid with
        | none => m
        | some layer =>
          match get_layer_source_path w layer with
          | none => m
          | some path =>
            if path = "" then m
            else
              let d := w.decodeUri layer.providerType layer.source
              if is_cloud_layer w layer then m
              else
                let layerName :=
                  if d.layerName ≠ "" then d.layerName
                  else if strContains layer.source "|layername=" then
                    sourceLayerNameOf layer.source
                  else ""
                pushA (path, layerName) layer m)
      []
  let collisions := sourceMap.filter (fun p => 1 < p.2.length)
  let sortedSources := sortBy (fun a b => keyLeB a.1 b.1) collisions
  sortedSources.enum.foldl
    (fun sg p =>
      let names := sortBy strLeB (p.2.2.map (fun l => l.name))
      p.2.2.foldl (fun sg l => setA l.id (p.1, names) sg) sg)
    []

/-- The skip condition of `_update_indicators_for_visible_layers`: the
freshly computed location, tree node and shared-source info all equal
the cached triple, and the indicators are already present or the
location is `None`. -/
def skipCheck (w : World) (st : MgrState) (lid : String) (layer : Layer) :
    Bool :=
  let newLoc := get_layer_location w layer
  let node := w.findLayer lid
  let multi := lookupA lid st.shared_groups
  let cached := lookupA lid st.layer_locations
  let cLoc := match cached with | some c => c.1 | none => none
  let cNode := match cached with | some c => c.2.1 | none => none
  let cMulti := match cached with | some c => c.2.2 | none => none
  decide (newLoc = cLoc ∧ node = cNode ∧ multi = cMulti ∧
    ((lookupA lid st.location_indicators).isSome = true ∨ newLoc = none))

/-- `_remove_indicator_for_layer`: remove the layer's indicators from
the view (when its node is still in the tree) and drop both cache
entries. -/
def _remove_indicator_for_layer (w : World) (st : MgrState) (layer : Layer) :
    MgrState × List IndicatorEvent :=
  match lookupA layer.id st.location_indicators with
  | none => (st, [])
  | some inds =>
    let evs :=
      match w.findLayer layer.id with
      | some node => inds.map (fun i =>
          { isAdd := false, lid := layer.id, nid := node.nid, ind := i })
      | none => []
    ({ st with location_indicators := eraseA layer.id st.location_indicators,
               layer_locations := eraseA layer.id st.layer_locations }, evs)

/-- `_layer_location_cache`: store the indicators and the freshly
computed `(location, node, shared info)` triple. -/
def _layer_location_cache (w : World) (st : MgrState) (inds : List Indicator)
    (lid : String) (layer : Layer) : MgrState :=
  { st with
    location_indicators := setA lid inds st.location_indicators,
    layer_locations := setA lid
      (get_layer_location w layer, w.findLayer lid, lookupA lid st.shared_groups)
      st.layer_locations }

/-- `_add_indicator_for_layer`: no-op when indicators exist; otherwise
add the indicators and cache the state (only when something was added). -/
def _add_indicator_for_layer (w : World) (st : MgrState) (layer : Layer) :
    MgrState × List IndicatorEvent :=
  if (lookupA layer.id st.location_indicators).isSome then (st, [])
  else
    match add_location_indicator w layer (lookupA layer.id st.shared_groups) with
    | (some inds, evs) => (_layer_location_cache w st inds layer.id layer, evs)
    | (none, evs) => (st, evs)

/-- The body of the per-layer loop of
`_update_indicators_for_visible_layers`. -/
def _update_one (w : World) (st : MgrState) (lid : String) :
    MgrState × List IndicatorEvent :=
  match w.mapLayer lid with
  | none => (st, [])
  | some layer =>
    if skipCheck w st lid layer then (st, [])
    else
      let rm :=
        if (lookupA lid st.location_indicators).isSome
        then _remove_indicator_for_layer w st layer
        else (st, [])
      if (get_layer_location w layer).isSome || is_empty_layer layer then
        let ad := _add_indicator_for_layer w rm.1 layer
        (ad.1, rm.2 ++ ad.2)
      else
        let newLayerLoc := setA lid ((none : Option LayerLocation),
          w.findLayer lid, lookupA lid st.shared_groups) rm.1.layer_locations
        ({ rm.1 with layer_locations := newLayerLoc }, rm.2)

/-- The loop of `_update_indicators_for_visible_layers`. -/
def updFold (w : World) : List String → MgrState → MgrState × List IndicatorEvent
  | [], st => (st, [])
  | lid :: rest, st =>
    let one := _update_one w st lid
    let more := updFold w rest one.1
    (more.1, one.2 ++ more.2)

def _update_indicators_for_visible_layers (w : World) (st : MgrState)
    (visible : List String) : MgrState × List IndicatorEvent :=
  updFold w visible st

/-- `_cleanup_deleted_layer`: indicators of a layer gone from the
project; events only when its node and entry still exist; both cache
entries dropped. -/
def _cleanup_deleted_layer (w : World) (st : MgrState) (lid : String) :
    MgrState × List IndicatorEvent :=
  let evs :=
    match w.findLayer lid, lookupA lid st.location_indicators with
    | some node, some inds => inds.map (fun i =>
        { isAdd := false, lid := lid, nid := node.nid, ind := i })
    | _, _ => []
  ({ st with location_indicators := eraseA lid st.location_indicators,
             layer_locations := eraseA lid st.layer_locations }, evs)

/-- One key of the `_cleanup_removed_layers` loop. -/
def cleanupStep (w : World) (visible : List String) (st : MgrState)
    (lid : String) : MgrState × List IndicatorEvent :=
  if lid ∈ visible then (st, [])
  else
    match w.mapLayer lid with
    | some layer => _remove_indicator_for_layer w st layer
    | none => _cleanup_deleted_layer w st lid

def cleanFold (w : World) (visible : List String) :
    List String → MgrState → MgrState × List IndicatorEvent
  | [], st => (st, [])
  | k :: rest, st =>
    let one := cleanupStep w visible st k
    let more := cleanFold w visible rest one.1
    (more.1, one.2 ++ more.2)

/-- `_cleanup_removed_layers`: iterate over a snapshot of the indicator
keys and drop those no longer in the tree. -/
def _cleanup_removed_layers (w : World) (st : MgrState)
    (visible : List String) : MgrState × List IndicatorEvent :=
  cleanFold w visible (st.location_indicators.map (fun p => p.1)) st

/-- `_update_all_location_indicators`: recompute the shared groups, diff
the visible layers against the cache, then clean up removed layers
(no-op when the layer tree root is unavailable). -/
def _update_all_location_indicators (w : World) (st : MgrState) :
    MgrState × List IndicatorEvent :=
  if ¬ w.rootOk then (st, [])
  else
    ((_cleanup_removed_layers w
        (updFold w (_get_visible_layer_ids w)
          { st with shared_groups :=
              _calculate_shared_groups w (_get_visible_layer_ids w) }).1
        (_get_visible_layer_ids w)).1,
     (updFold w (_get_visible_layer_ids w)
        { st with shared_groups :=
            _calculate_shared_groups w (_get_visible_layer_ids w) }).2 ++
     (_cleanup_removed_layers w
        (updFold w (_get_visible_layer_ids w)
          { st with shared_groups :=
              _calculate_shared_groups w (_get_visible_layer_ids w) }).1
        (_get_visible_layer_ids w)).2)

/-! ### Association-list lemmas -/

theorem lookupA_setA_self {κ α : Type} [DecidableEq κ] (k : κ) (v : α)
    (m : List (κ × α)) : lookupA k (setA k v m) = some v := by
  simp [lookupA, setA]

theorem lookupA_eraseA_self {κ α : Type} [DecidableEq κ] (k : κ)
    (m : List (κ × α)) : lookupA k (eraseA k m) = none := by
  induction m with
  | nil => rfl
  | cons p r ih =>
    by_cases hp : p.1 = k
    · simpa [eraseA, List.filter_cons, hp] using ih
    · simpa [eraseA, List.filter_cons, hp, lookupA] using ih

theorem eraseA_cons_hit {κ α : Type} [DecidableEq κ] {k : κ} {p : κ × α}
    {r : List (κ × α)} (hp : p.1 = k) : eraseA k (p :: r) = eraseA k r := by
  simp [eraseA, List.filter_cons, hp]

theorem eraseA_cons_miss {κ α : Type} [DecidableEq κ] {k : κ} {p : κ × α}
    {r : List (κ × α)} (hp : ¬ p.1 = k) :
    eraseA k (p :: r) = p :: eraseA k r := by
  simp [eraseA, List.filter_cons, hp]

theorem lookupA_eraseA_ne {κ α : Type} [DecidableEq κ] {k k' : κ}
    (h : k' ≠ k) (m : List (κ × α)) :
    lookupA k' (eraseA k m) = lookupA k' m := by
  induction m with
  | nil => rfl
  | cons p r ih =>
    by_cases hp : p.1 = k
    · have hp2 : ¬ p.1 = k' := by rw [hp]; exact fun hc => h hc.symm
      rw [eraseA_cons_hit hp, ih]
      simp only [lookupA, if_neg hp2]
    · rw [eraseA_cons_miss hp]
      simp only [lookupA]
      by_cases hq : p.1 = k'
      · rw [if_pos hq, if_pos hq]
      · rw [if_neg hq, if_neg hq, ih]

theorem lookupA_setA_ne {κ α : Type} [DecidableEq κ] {k k' : κ}
    (h : k' ≠ k) (v : α) (m : List (κ × α)) :
    lookupA k' (setA k v m) = lookupA k' m := by
  have h2 : ¬ k = k' := fun hc => h hc.symm
  simp only [setA, lookupA, h2, if_false]
  exact lookupA_eraseA_ne h m

theorem eraseA_absent {κ α : Type} [DecidableEq κ] {k : κ}
    {m : List (κ × α)} (h : lookupA k m = none) : eraseA k m = m := by
  induction m with
  | nil => rfl
  | cons p r ih =>
    by_cases hp : p.1 = k
    · rw [lookupA, if_pos hp] at h; cases h
    · rw [lookupA, if_neg hp] at h
      rw [eraseA_cons_miss hp, ih h]

theorem lookupA_some_mem_keys {κ α : Type} [DecidableEq κ] {k : κ}
    {m : List (κ × α)} {v : α} (h : lookupA k m = some v) :
    k ∈ m.map (fun p => p.1) := by
  induction m with
  | nil => cases h
  | cons p r ih =>
    by_cases hp : p.1 = k
    · rw [List.map_cons, hp]; exact List.mem_cons_self _ _
    · rw [lookupA, if_neg hp] at h
      exact List.mem_cons_of_mem _ (ih h)

/-! ### Facts about the host lookups -/

theorem mapLayer_id {w : World} {lid : String} {layer : Layer}
    (h : w.mapLayer lid = some layer) : layer.id = lid := by
  have := List.find?_some h
  simpa using this

theorem findLayer_isSome_of_visible {w : World} {lid : String}
    (h : lid ∈ _get_visible_layer_ids w) : (w.findLayer lid).isSome := by
  unfold _get_visible_layer_ids at h
  rw [List.mem_dedup] at h
  rcases List.mem_filterMap.mp h with ⟨n, hn, hid⟩
  unfold World.findLayer
  rw [List.find?_isSome]
  exact ⟨n, hn, by simp [hid]⟩

/-! ### Indicator events: claim C5 -/

theorem _add_empty_indicator_fields {l : Layer} {i : Indicator}
    (h : _add_empty_indicator l = some i) :
    i.icon.isSome ∧ i.tooltip.isSome := by
  unfold _add_empty_indicator at h
  split at h
  · cases h
  · cases h; exact ⟨rfl, rfl⟩

theorem _add_location_indicator_fields {w : World} {l : Layer} {i : Indicator}
    (h : _add_location_indicator w l = some i) :
    i.icon.isSome ∧ i.tooltip.isSome := by
  unfold _add_location_indicator at h
  split at h
  · cases h
  · cases h; exact ⟨rfl, rfl⟩

theorem _add_multi_indicator_fields {w : World} {l : Layer}
    {multi : Option MultiInfo} {i : Indicator}
    (h : _add_multi_indicator w l multi = some i) :
    i.icon.isSome ∧ i.tooltip.isSome := by
  unfold _add_multi_indicator at h
  split at h
  · cases h
  · cases h; exact ⟨rfl, rfl⟩

/-- Claim C5: every indicator that `add_location_indicator` attaches to
a layer-tree row — whichever of the three kinds (empty layer, data
source location, shared data source) produced it — has both its icon
and its tooltip set at the moment it is added to the view. -/
theorem C5_indicator_icon_tooltip (w : World) (l : Layer)
    (multi : Option MultiInfo) :
    ∀ e ∈ (add_location_indicator w l multi).2,
      e.isAdd = true ∧ e.ind.icon.isSome ∧ e.ind.tooltip.isSome := by
  intro e he
  unfold add_location_indicator at he
  cases hf : w.findLayer l.id with
  | none => rw [hf] at he; cases he
  | some node =>
    rw [hf] at he
    simp only at he
    rcases List.mem_map.mp he with ⟨i, hi, rfl⟩
    refine ⟨rfl, ?_⟩
    rcases List.mem_append.mp hi with hi2 | hmu
    · rcases List.mem_append.mp hi2 with hem | hlo
      · rcases Option.mem_toList.mp hem with hsome
        exact _add_empty_indicator_fields hsome
      · rcases Option.mem_toList.mp hlo with hsome
        exact _add_location_indicator_fields hsome
    · rcases Option.mem_toList.mp hmu with hsome
      exact _add_multi_indicator_fields hsome

/-- Witness for `C5_indicator_icon_tooltip`: an empty vector layer in an
unsaved project yields exactly the empty-layer indicator, added with
icon and tooltip. -/
theorem C5_indicator_icon_tooltip_witness :
    let le : Layer := { id := "e", source := "dir/x.shp", featureCount := 0 }
    let w : World := { nodes := [{ nid := 7, layerId := some "e" }] }
    let ev : IndicatorEvent :=
      { isAdd := true, lid := "e", nid := 7,
        ind := { icon := some LayerLocation.emptyLoc.icon,
                 tooltip := some LayerLocation.emptyLoc.tooltip } }
    ev ∈ (add_location_indicator w le none).2 ∧
      ev.isAdd = true ∧ ev.ind.icon.isSome ∧ ev.ind.tooltip.isSome := by
  intro le w ev
  refine ⟨by decide, ?_⟩
  exact C5_indicator_icon_tooltip w le none ev (by decide)

/-! ### Local behaviour of the manager operations -/

theorem _remove_none {w : World} {st : MgrState} {layer : Layer}
    (h : lookupA layer.id st.location_indicators = none) :
    _remove_indicator_for_layer w st layer = (st, []) := by
  simp [_remove_indicator_for_layer, h]

theorem _remove_some {w : World} {st : MgrState} {layer : Layer}
    {inds : List Indicator}
    (h : lookupA layer.id st.location_indicators = some inds) :
    (_remove_indicator_for_layer w st layer).1 =
      { st with location_indicators := eraseA layer.id st.location_indicators,
                layer_locations := eraseA layer.id st.layer_locations } := by
  simp [_remove_indicator_for_layer, h]

theorem _remove_lookup_self (w : World) (st : MgrState) (layer : Layer) :
    lookupA layer.id
      (_remove_indicator_for_layer w st layer).1.location_indicators = none := by
  cases h : lookupA layer.id st.location_indicators with
  | none => rw [_remove_none h]; exact h
  | some inds => rw [_remove_some h]; exact lookupA_eraseA_self _ _

theorem _remove_sg (w : World) (st : MgrState) (layer : Layer) :
    (_remove_indicator_for_layer w st layer).1.shared_groups =
      st.shared_groups := by
  cases h : lookupA layer.id st.location_indicators with
  | none => rw [_remove_none h]
  | some inds => rw [_remove_some h]

theorem _remove_preserve {w : World} {st : MgrState} {layer : Layer}
    {k : String} (hk : k ≠ layer.id) :
    lookupA k (_remove_indicator_for_layer w st layer).1.location_indicators =
      lookupA k st.location_indicators ∧
    lookupA k (_remove_indicator_for_layer w st layer).1.layer_locations =
      lookupA k st.layer_locations := by
  cases h : lookupA layer.id st.location_indicators with
  | none => rw [_remove_none h]; exact ⟨rfl, rfl⟩
  | some inds =>
    rw [_remove_some h]
    exact ⟨lookupA_eraseA_ne hk _, lookupA_eraseA_ne hk _⟩

theorem _remove_events_lid (w : World) (st : MgrState) (layer : Layer) :
    ∀ e ∈ (_remove_indicator_for_layer w st layer).2, e.lid = layer.id := by
  intro e he
  unfold _remove_indicator_for_layer at he
  cases h : lookupA layer.id st.location_indicators with
  | none => rw [h] at he; cases he
  | some inds =>
    rw [h] at he
    simp only at he
    cases hf : w.findLayer layer.id with
    | some node =>
      rw [hf] at he
      rcases List.mem_map.mp he with ⟨i, _, rfl⟩
      rfl
    | none => rw [hf] at he; cases he

theorem add_location_indicator_events_lid (w : World) (l : Layer)
    (multi : Option MultiInfo) :
    ∀ e ∈ (add_location_indicator w l multi).2, e.lid = l.id := by
  intro e he
  unfold add_location_indicator at he
  cases hf : w.findLayer l.id with
  | none => rw [hf] at he; cases he
  | some node =>
    rw [hf] at he
    simp only at he
    rcases List.mem_map.mp he with ⟨i, _, rfl⟩
    rfl

theorem _add_present {w : World} {st : MgrState} {layer : Layer}
    (h : (lookupA layer.id st.location_indicators).isSome = true) :
    _add_indicator_for_layer w st layer = (st, []) := by
  simp [_add_indicator_for_layer, h]

theorem _add_events_lid (w : World) (st : MgrState) (layer : Layer) :
    ∀ e ∈ (_add_indicator_for_layer w st layer).2, e.lid = layer.id := by
  intro e he
  unfold _add_indicator_for_layer at he
  split at he
  · cases he
  · split at he
    · next inds evs heq =>
        simp only at he
        have hev : (add_location_indicator w layer
            (lookupA layer.id st.shared_groups)).2 = evs := by rw [heq]
        rw [← hev] at he
        exact add_location_indicator_events_lid w layer _ e he
    · next evs heq =>
        simp only at he
        have hev : (add_location_indicator w layer
            (lookupA layer.id st.shared_groups)).2 = evs := by rw [heq]
        rw [← hev] at he
        exact add_location_indicator_events_lid w layer _ e he

theorem _cache_preserve {w : World} {st : MgrState} {inds : List Indicator}
    {lid : String} {layer : Layer} {k : String} (hk : k ≠ lid) :
    lookupA k (_layer_location_cache w st inds lid layer).location_indicators =
      lookupA k st.location_indicators ∧
    lookupA k (_layer_location_cache w st inds lid layer).layer_locations =
      lookupA k st.layer_locations := by
  unfold _layer_location_cache
  exact ⟨lookupA_setA_ne hk _ _, lookupA_setA_ne hk _ _⟩

theorem _add_sg (w : World) (st : MgrState) (layer : Layer) :
    (_add_indicator_for_layer w st layer).1.shared_groups =
      st.shared_groups := by
  unfold _add_indicator_for_layer
  split
  · rfl
  · split
    · rfl
    · rfl

theorem _add_preserve {w : World} {st : MgrState} {layer : Layer}
    {k : String} (hk : k ≠ layer.id) :
    lookupA k (_add_indicator_for_layer w st layer).1.location_indicators =
      lookupA k st.location_indicators ∧
    lookupA k (_add_indicator_for_layer w st layer).1.layer_locations =
      lookupA k st.layer_locations := by
  unfold _add_indicator_for_layer
  split
  · exact ⟨rfl, rfl⟩
  · split
    · exact _cache_preserve hk
    · exact ⟨rfl, rfl⟩

theorem _update_one_none {w : World} {st : MgrState} {lid : String}
    (hm : w.mapLayer lid = none) : _update_one w st lid = (st, []) := by
  simp [_update_one, hm]

theorem _update_one_skip {w : World} {st : MgrState} {lid : String}
    {layer : Layer} (hm : w.mapLayer lid = some layer)
    (hs : skipCheck w st lid layer = true) :
    _update_one w st lid = (st, []) := by
  simp [_update_one, hm, hs]

theorem _update_one_sg (w : World) (st : MgrState) (lid : String) :
    (_update_one w st lid).1.shared_groups = st.shared_groups := by
  cases hm : w.mapLayer lid with
  | none => rw [_update_one_none hm]
  | some layer =>
    by_cases hs : skipCheck w st lid layer = true
    · rw [_update_one_skip hm hs]
    · unfold _update_one
      rw [hm]
      simp only
      rw [if_neg hs]
      by_cases hli : (lookupA lid st.location_indicators).isSome = true
      · rw [if_pos hli]
        by_cases hbr : ((get_layer_location w layer).isSome ||
            is_empty_layer layer) = true
        · rw [if_pos hbr]
          simp only
          rw [_add_sg, _remove_sg]
        · rw [if_neg hbr]
          simp only
          rw [_remove_sg]
      · rw [if_neg hli]
        by_cases hbr : ((get_layer_location w layer).isSome ||
            is_empty_layer layer) = true
        · rw [if_pos hbr]
          simp only
          rw [_add_sg]
        · rw [if_neg hbr]

theorem _update_one_preserve {w : World} {st : MgrState} {lid k : String}
    (hk : k ≠ lid) :
    lookupA k (_update_one w st lid).1.location_indicators =
      lookupA k st.location_indicators ∧
    lookupA k (_update_one w st lid).1.layer_locations =
      lookupA k st.layer_locations := by
  cases hm : w.mapLayer lid with
  | none => rw [_update_one_none hm]; exact ⟨rfl, rfl⟩
  | some layer =>
    have hid : layer.id = lid := mapLayer_id hm
    have hkl : k ≠ layer.id := by rw [hid]; exact hk
    by_cases hs : skipCheck w st lid layer = true
    · rw [_update_one_skip hm hs]; exact ⟨rfl, rfl⟩
    · unfold _update_one
      rw [hm]
      simp only
      rw [if_neg hs]
      by_cases hli : (lookupA lid st.location_indicators).isSome = true
      · rw [if_pos hli]
        by_cases hbr : ((get_layer_location w layer).isSome ||
            is_empty_layer layer) = true
        · rw [if_pos hbr]
          simp only
          obtain ⟨h1, h2⟩ := @_add_preserve w
            (_remove_indicator_for_layer w st layer).1 layer k hkl
          obtain ⟨h3, h4⟩ := @_remove_preserve w st layer k hkl
          exact ⟨h1.trans h3, h2.trans h4⟩
        · rw [if_neg hbr]
          simp only
          obtain ⟨h3, h4⟩ := @_remove_preserve w st layer k hkl
          exact ⟨h3, (lookupA_setA_ne hk _ _).trans h4⟩
      · rw [if_neg hli]
        by_cases hbr : ((get_layer_location w layer).isSome ||
            is_empty_layer layer) = true
        · rw [if_pos hbr]
          simp only
          exact @_add_preserve w st layer k hkl
        · rw [if_neg hbr]
          exact ⟨rfl, lookupA_setA_ne hk _ _⟩

theorem _update_one_events_lid (w : World) (st : MgrState) (lid : String) :
    ∀ e ∈ (_update_one w st lid).2, e.lid = lid := by
  intro e he
  cases hm : w.mapLayer lid with
  | none => rw [_update_one_none hm] at he; cases he
  | some layer =>
    have hid : layer.id = lid := mapLayer_id hm
    by_cases hs : skipCheck w st lid layer = true
    · rw [_update_one_skip hm hs] at he; cases he
    · unfold _update_one at he
      rw [hm] at he
      simp only at he
      rw [if_neg hs] at he
      by_cases hli : (lookupA lid st.location_indicators).isSome = true
      · rw [if_pos hli] at he
        by_cases hbr : ((get_layer_location w layer).isSome ||
            is_empty_layer layer) = true
        · rw [if_pos hbr] at he
          simp only at he
          rcases List.mem_append.mp he with h1 | h2
          · rw [← hid]; exact _remove_events_lid w st layer e h1
          · rw [← hid]; exact _add_events_lid w _ layer e h2
        · rw [if_neg hbr] at he
          simp only at he
          rw [← hid]; exact _remove_events_lid w st layer e he
      · rw [if_neg hli] at he
        by_cases hbr : ((get_layer_location w layer).isSome ||
            is_empty_layer layer) = true
        · rw [if_pos hbr] at he
          simp only at he
          rcases List.mem_append.mp he with h1 | h2
          · cases h1
          · rw [← hid]; exact _add_events_lid w st layer e h2
        · rw [if_neg hbr] at he
          simp only at he
          cases he

/-! ### The skip condition is re-established by every update -/

theorem skipCheck_congr {w : World} {st st' : MgrState} {lid : String}
    {layer : Layer}
    (h1 : lookupA lid st'.layer_locations = lookupA lid st.layer_locations)
    (h2 : lookupA lid st'.location_indicators = lookupA lid st.location_indicators)
    (h3 : lookupA lid st'.shared_groups = lookupA lid st.shared_groups) :
    skipCheck w st' lid layer = skipCheck w st lid layer := by
  unfold skipCheck
  rw [h1, h2, h3]

theorem skipCheck_of_cached {w : World} {st : MgrState} {lid : String}
    {layer : Layer}
    (h : lookupA lid st.layer_locations =
      some (get_layer_location w layer, w.findLayer lid,
        lookupA lid st.shared_groups))
    (h2 : (lookupA lid st.location_indicators).isSome = true ∨
      get_layer_location w layer = none) :
    skipCheck w st lid layer = true := by
  unfold skipCheck
  rw [h]
  rcases h2 with h2 | h2 <;> simp [h2]

theorem _add_absent_total {w : World} {st : MgrState} {layer : Layer}
    {node : Node}
    (habs : lookupA layer.id st.location_indicators = none)
    (hfn : w.findLayer layer.id = some node)
    (hbr : ((get_layer_location w layer).isSome || is_empty_layer layer) = true) :
    ∃ inds, _add_indicator_for_layer w st layer =
      (_layer_location_cache w st inds layer.id layer,
       inds.map (fun i =>
         { isAdd := true, lid := layer.id, nid := node.nid, ind := i })) := by
  refine ⟨(_add_empty_indicator layer).toList ++
    (_add_location_indicator w layer).toList ++
    (_add_multi_indicator w layer
      (lookupA layer.id st.shared_groups)).toList, ?_⟩
  have hne : ((_add_empty_indicator layer).toList ++
      (_add_location_indicator w layer).toList ++
      (_add_multi_indicator w layer
        (lookupA layer.id st.shared_groups)).toList).isEmpty = false := by
    rcases Bool.or_eq_true_iff.mp hbr with hloc | hemp
    · obtain ⟨loc, hl⟩ := Option.isSome_iff_exists.mp hloc
      simp [_add_location_indicator, hl, List.isEmpty_iff]
    · simp [_add_empty_indicator, hemp, List.isEmpty_iff]
  have hadd : add_location_indicator w layer
      (lookupA layer.id st.shared_groups) =
      (some ((_add_empty_indicator layer).toList ++
        (_add_location_indicator w layer).toList ++
        (_add_multi_indicator w layer
          (lookupA layer.id st.shared_groups)).toList),
       ((_add_empty_indicator layer).toList ++
        (_add_location_indicator w layer).toList ++
        (_add_multi_indicator w layer
          (lookupA layer.id st.shared_groups)).toList).map (fun i =>
         { isAdd := true, lid := layer.id, nid := node.nid, ind := i })) := by
    unfold add_location_indicator
    rw [hfn]
    simp only [hne, if_false, Bool.false_eq_true]
  unfold _add_indicator_for_layer
  rw [habs]
  simp only [Option.isSome_none, Bool.false_eq_true, if_false]
  rw [hadd]

theorem _add_absent_state {w : World} {st : MgrState} {layer : Layer}
    {node : Node}
    (habs : lookupA layer.id st.location_indicators = none)
    (hfn : w.findLayer layer.id = some node)
    (hbr : ((get_layer_location w layer).isSome || is_empty_layer layer) = true) :
    ∃ inds, (_add_indicator_for_layer w st layer).1 =
      _layer_location_cache w st inds layer.id layer := by
  obtain ⟨inds, h⟩ := _add_absent_total habs hfn hbr
  exact ⟨inds, by rw [h]⟩

theorem _update_one_post {w : World} {st : MgrState} {lid : String}
    {layer : Layer} (hm : w.mapLayer lid = some layer)
    (hnode : (w.findLayer lid).isSome = true) :
    skipCheck w (_update_one w st lid).1 lid layer = true := by
  have hid : layer.id = lid := mapLayer_id hm
  subst hid
  obtain ⟨node, hfn⟩ := Option.isSome_iff_exists.mp hnode
  by_cases hs : skipCheck w st layer.id layer = true
  · rw [_update_one_skip hm hs]; exact hs
  · unfold _update_one
    rw [hm]
    simp only
    rw [if_neg hs]
    by_cases hbr : ((get_layer_location w layer).isSome ||
        is_empty_layer layer) = true
    · rw [if_pos hbr]
      by_cases hli : (lookupA layer.id st.location_indicators).isSome = true
      · rw [if_pos hli]
        obtain ⟨inds, hstep⟩ := @_add_absent_state w
          (_remove_indicator_for_layer w st layer).1 layer node
          (_remove_lookup_self w st layer) hfn hbr
        show skipCheck w (_add_indicator_for_layer w
          (_remove_indicator_for_layer w st layer).1 layer).1 layer.id layer = true
        rw [hstep]
        apply skipCheck_of_cached
        · simp [_layer_location_cache, lookupA_setA_self]
        · exact Or.inl (by simp [_layer_location_cache, lookupA_setA_self])
      · rw [if_neg hli]
        have habs : lookupA layer.id st.location_indicators = none :=
          Option.not_isSome_iff_eq_none.mp (by simpa using hli)
        obtain ⟨inds, hstep⟩ := @_add_absent_state w st layer node habs hfn hbr
        show skipCheck w (_add_indicator_for_layer w st layer).1
          layer.id layer = true
        rw [hstep]
        apply skipCheck_of_cached
        · simp [_layer_location_cache, lookupA_setA_self]
        · exact Or.inl (by simp [_layer_location_cache, lookupA_setA_self])
    · rw [if_neg hbr]
      have hlocn : get_layer_location w layer = none := by
        rcases hgl : get_layer_location w layer with _ | loc
        · rfl
        · exact absurd (by simp [hgl]) hbr
      by_cases hli : (lookupA layer.id st.location_indicators).isSome = true
      · rw [if_pos hli]
        show skipCheck w
          { (_remove_indicator_for_layer w st layer).1 with
            layer_locations := setA layer.id ((none : Option LayerLocation),
              w.findLayer layer.id, lookupA layer.id st.shared_groups)
              (_remove_indicator_for_layer w st layer).1.layer_locations }
          layer.id layer = true
        apply skipCheck_of_cached
        · simp [lookupA_setA_self, hlocn, _remove_sg]
        · exact Or.inr hlocn
      · rw [if_neg hli]
        show skipCheck w
          { st with
            layer_locations := setA layer.id ((none : Option LayerLocation),
              w.findLayer layer.id, lookupA layer.id st.shared_groups)
              st.layer_locations }
          layer.id layer = true
        apply skipCheck_of_cached
        · simp [lookupA_setA_self, hlocn]
        · exact Or.inr hlocn

/-! ### Fold lemmas for the visible-layer loop -/

theorem updFold_sg (w : World) :
    ∀ (ls : List String) (st : MgrState),
      (updFold w ls st).1.shared_groups = st.shared_groups := by
  intro ls
  induction ls with
  | nil => intro st; rfl
  | cons a rest ih =>
    intro st
    simp only [updFold]
    rw [ih, _update_one_sg]

theorem updFold_preserve (w : World) :
    ∀ (ls : List String) (st : MgrState) (k : String), k ∉ ls →
      lookupA k (updFold w ls st).1.location_indicators =
        lookupA k st.location_indicators ∧
      lookupA k (updFold w ls st).1.layer_locations =
        lookupA k st.layer_locations := by
  intro ls
  induction ls with
  | nil => intro st k _; exact ⟨rfl, rfl⟩
  | cons a rest ih =>
    intro st k hk
    simp only [List.mem_cons, not_or] at hk
    simp only [updFold]
    obtain ⟨h1, h2⟩ := ih (_update_one w st a).1 k hk.2
    obtain ⟨h3, h4⟩ := @_update_one_preserve w st a k hk.1
    exact ⟨h1.trans h3, h2.trans h4⟩

theorem updFold_events_lid (w : World) :
    ∀ (ls : List String) (st : MgrState) (e : IndicatorEvent),
      e ∈ (updFold w ls st).2 → e.lid ∈ ls := by
  intro ls
  induction ls with
  | nil => intro st e he; cases he
  | cons a rest ih =>
    intro st e he
    simp only [updFold] at he
    rcases List.mem_append.mp he with h1 | h2
    · rw [_update_one_events_lid w st a e h1]
      exact List.mem_cons_self _ _
    · exact List.mem_cons_of_mem _ (ih _ e h2)

theorem updFold_noop (w : World) :
    ∀ (ls : List String) (st : MgrState),
      (∀ lid ∈ ls, _update_one w st lid = (st, [])) →
      updFold w ls st = (st, []) := by
  intro ls
  induction ls with
  | nil => intro st _; rfl
  | cons a rest ih =>
    intro st h
    simp only [updFold]
    rw [h a (List.mem_cons_self _ _)]
    rw [ih st (fun lid hl => h lid (List.mem_cons_of_mem _ hl))]
    rfl

theorem updFold_post (w : World) :
    ∀ (ls : List String) (st : MgrState), ls.Nodup →
      ∀ lid ∈ ls, ∀ layer, w.mapLayer lid = some layer →
        (w.findLayer lid).isSome = true →
        skipCheck w (updFold w ls st).1 lid layer = true := by
  intro ls
  induction ls with
  | nil => intro st _ lid hl; cases hl
  | cons a rest ih =>
    intro st hnd lid hl layer hm hnode
    have hnd2 := List.nodup_cons.mp hnd
    simp only [updFold]
    rcases List.mem_cons.mp hl with rfl | hl'
    · -- processed first; the rest leaves the entries of `lid` alone
      obtain ⟨h1, h2⟩ := updFold_preserve w rest (_update_one w st lid).1 lid hnd2.1
      have hpost := @_update_one_post w st lid layer hm hnode
      rw [skipCheck_congr h2 h1 ?hsg]
      · exact hpost
      case hsg =>
        rw [updFold_sg]
    · exact ih (_update_one w st a).1 hnd2.2 lid hl' layer hm hnode

/-! ### Cleanup lemmas -/

theorem lookupA_eraseA_none {κ α : Type} [DecidableEq κ] {q x : κ}
    {m : List (κ × α)} (h : lookupA q m = none) :
    lookupA q (eraseA x m) = none := by
  by_cases hq : q = x
  · subst hq; exact lookupA_eraseA_self _ _
  · rw [lookupA_eraseA_ne hq]; exact h

theorem cleanupStep_sg (w : World) (visible : List String) (st : MgrState)
    (k : String) :
    (cleanupStep w visible st k).1.shared_groups = st.shared_groups := by
  unfold cleanupStep
  split
  · rfl
  · split
    · next layer _ => exact _remove_sg w st layer
    · rfl

theorem cleanupStep_preserve {w : World} {visible : List String}
    {st : MgrState} {q k : String} (hk : k ∈ visible) :
    lookupA k (cleanupStep w visible st q).1.location_indicators =
      lookupA k st.location_indicators ∧
    lookupA k (cleanupStep w visible st q).1.layer_locations =
      lookupA k st.layer_locations := by
  unfold cleanupStep
  split
  · exact ⟨rfl, rfl⟩
  · next hq =>
    have hkq : k ≠ q := fun hc => hq (hc ▸ hk)
    split
    · next layer heq =>
      have hidq : layer.id = q := mapLayer_id heq
      exact @_remove_preserve w st layer k (by rw [hidq]; exact hkq)
    · exact ⟨lookupA_eraseA_ne hkq _, lookupA_eraseA_ne hkq _⟩

theorem cleanupStep_li_none_mono {w : World} {visible : List String}
    {st : MgrState} {k q : String}
    (h : lookupA q st.location_indicators = none) :
    lookupA q (cleanupStep w visible st k).1.location_indicators = none := by
  unfold cleanupStep
  split
  · exact h
  · split
    · next layer _ =>
      cases hli : lookupA layer.id st.location_indicators with
      | none => rw [_remove_none hli]; exact h
      | some inds => rw [_remove_some hli]; exact lookupA_eraseA_none h
    · exact lookupA_eraseA_none h

theorem cleanupStep_clears {w : World} {visible : List String}
    {st : MgrState} {k : String} (hk : ¬ k ∈ visible) :
    lookupA k (cleanupStep w visible st k).1.location_indicators = none := by
  unfold cleanupStep
  rw [if_neg hk]
  split
  · next layer heq =>
    have hid : layer.id = k := mapLayer_id heq
    rw [← hid]
    exact _remove_lookup_self w st layer
  · exact lookupA_eraseA_self _ _

theorem cleanupStep_noev {w : World} {visible : List String} {st : MgrState}
    {k : String}
    (h : k ∈ visible ∨ lookupA k st.location_indicators = none) :
    (cleanupStep w visible st k).2 = [] := by
  rcases h with h | h
  · unfold cleanupStep; rw [if_pos h]
  · unfold cleanupStep
    split
    · rfl
    · split
      · next layer heq =>
        have hid : layer.id = k := mapLayer_id heq
        rw [_remove_none (by rw [hid]; exact h)]
      · cases hf : w.findLayer k <;>
          simp [_cleanup_deleted_layer, hf, h]

theorem cleanFold_sg (w : World) (visible : List String) :
    ∀ (ks : List String) (st : MgrState),
      (cleanFold w visible ks st).1.shared_groups = st.shared_groups := by
  intro ks
  induction ks with
  | nil => intro st; rfl
  | cons k rest ih =>
    intro st
    simp only [cleanFold]
    rw [ih, cleanupStep_sg]

theorem cleanFold_preserve (w : World) (visible : List String) :
    ∀ (ks : List String) (st : MgrState) (k : String), k ∈ visible →
      lookupA k (cleanFold w visible ks st).1.location_indicators =
        lookupA k st.location_indicators ∧
      lookupA k (cleanFold w visible ks st).1.layer_locations =
        lookupA k st.layer_locations := by
  intro ks
  induction ks with
  | nil => intro st k _; exact ⟨rfl, rfl⟩
  | cons q rest ih =>
    intro st k hk
    simp only [cleanFold]
    obtain ⟨h1, h2⟩ := ih (cleanupStep w visible st q).1 k hk
    obtain ⟨h3, h4⟩ := @cleanupStep_preserve w visible st q k hk
    exact ⟨h1.trans h3, h2.trans h4⟩

theorem cleanFold_clears (w : World) (visible : List String) :
    ∀ (ks : List String) (st : MgrState) (q : String), ¬ q ∈ visible →
      (lookupA q st.location_indicators = none ∨ q ∈ ks) →
      lookupA q (cleanFold w visible ks st).1.location_indicators = none := by
  intro ks
  induction ks with
  | nil =>
    intro st q _ h
    rcases h with h | h
    · exact h
    · cases h
  | cons k rest ih =>
    intro st q hqv h
    simp only [cleanFold]
    rcases h with h | h
    · exact ih _ q hqv (Or.inl (cleanupStep_li_none_mono h))
    · rcases List.mem_cons.mp h with rfl | hr
      · exact ih _ q hqv (Or.inl (cleanupStep_clears hqv))
      · exact ih _ q hqv (Or.inr hr)

theorem cleanFold_noev (w : World) (visible : List String) :
    ∀ (ks : List String) (st : MgrState),
      (∀ k ∈ ks, k ∈ visible ∨ lookupA k st.location_indicators = none) →
      (cleanFold w visible ks st).2 = [] := by
  intro ks
  induction ks with
  | nil => intro st _; rfl
  | cons k rest ih =>
    intro st h
    simp only [cleanFold]
    rw [cleanupStep_noev (h k (List.mem_cons_self _ _))]
    rw [ih _ (fun q hq => ?_)]
    · rfl
    · rcases h q (List.mem_cons_of_mem _ hq) with hv | hn
      · exact Or.inl hv
      · exact Or.inr (cleanupStep_li_none_mono hn)

theorem MgrState_shared_eta (st : MgrState) :
    { st with shared_groups := st.shared_groups } = st := by
  cases st
  rfl

/-! ### Claim C2 -/

theorem updFold_skip_noevents (w : World) :
    ∀ (visible : List String) (st : MgrState) (lid : String) (layer : Layer),
      visible.Nodup →
      w.mapLayer lid = some layer →
      skipCheck w st lid layer = true →
      ∀ e ∈ (updFold w visible st).2, e.lid ≠ lid := by
  intro visible
  induction visible with
  | nil => intro st lid layer _ _ _ e he; cases he
  | cons a rest ih =>
    intro st lid layer hnd hm hsk e he
    have hnd2 := List.nodup_cons.mp hnd
    simp only [updFold] at he
    by_cases hal : a = lid
    · subst hal
      rw [_update_one_skip hm hsk] at he
      simp only [List.nil_append] at he
      intro hc
      have := updFold_events_lid w rest st e he
      rw [hc] at this
      exact hnd2.1 this
    · intro hc
      rcases List.mem_append.mp he with h1 | h2
      · have := _update_one_events_lid w st a e h1
        rw [hc] at this
        exact hal this.symm
      · have hkne : lid ≠ a := fun hcc => hal hcc.symm
        obtain ⟨hp1, hp2⟩ := @_update_one_preserve w st a lid hkne
        have hsk2 : skipCheck w (_update_one w st a).1 lid layer = true := by
          rw [skipCheck_congr hp2 hp1 (by rw [_update_one_sg])]
          exact hsk
        exact ih _ lid layer hnd2.2 hm hsk2 e h2 hc

/-- Claim C2: the indicator update is an incremental diff.  (1) For any
layer whose computed location, tree node and shared-source info all
equal the cached state — its indicators being present, or its location
`None` — `_update_indicators_for_visible_layers` performs no indicator
removal or addition for that layer.  (2) Running
`_update_all_location_indicators` twice against an unchanged host state
produces no indicator change on the second run. -/
theorem C2_incremental_indicator_diffing (w : World) (st : MgrState) :
    (∀ (visible : List String) (lid : String) (layer : Layer),
        visible.Nodup →
        w.mapLayer lid = some layer →
        skipCheck w st lid layer = true →
        ∀ e ∈ (_update_indicators_for_visible_layers w st visible).2,
          e.lid ≠ lid) ∧
    (_update_all_location_indicators w
        (_update_all_location_indicators w st).1).2 = [] := by
  constructor
  · intro visible lid layer hnd hm hsk e he
    exact updFold_skip_noevents w visible st lid layer hnd hm hsk e he
  · by_cases hroot : w.rootOk = true
    · have hcond : ¬ ¬ (w.rootOk = true) := not_not_intro hroot
      unfold _update_all_location_indicators
      rw [if_neg hcond, if_neg hcond]
      have hndv : (_get_visible_layer_ids w).Nodup := List.nodup_dedup _
      -- the state after the first run
      set visible := _get_visible_layer_ids w with hv
      set sg := _calculate_shared_groups w visible with hsgdef
      set st0 : MgrState := { st with shared_groups := sg } with hst0
      set st1 := (updFold w visible st0).1 with hst1
      set st2 := (_cleanup_removed_layers w st1 visible).1 with hst2
      -- the second run recomputes the same shared groups
      have hsg2 : st2.shared_groups = sg := by
        rw [hst2]
        unfold _cleanup_removed_layers
        rw [cleanFold_sg, hst1, updFold_sg]
      have heta : ({ st2 with shared_groups := sg } : MgrState) = st2 := by
        rw [← hsg2]
      rw [heta]
      -- every visible layer is skipped on the second pass
      have hnoop : ∀ lid ∈ visible, _update_one w st2 lid = (st2, []) := by
        intro lid hl
        cases hm : w.mapLayer lid with
        | none => exact _update_one_none hm
        | some layer =>
          apply _update_one_skip hm
          have hnodeS : (w.findLayer lid).isSome = true :=
            findLayer_isSome_of_visible (by rw [← hv]; exact hl)
          have hpost := updFold_post w visible st0 hndv lid hl layer hm hnodeS
          rw [← hst1] at hpost
          obtain ⟨hp1, hp2⟩ := cleanFold_preserve w visible
            (st1.location_indicators.map (fun p => p.1)) st1 lid hl
          have hsgl : lookupA lid st2.shared_groups =
              lookupA lid st1.shared_groups := by
            rw [hst2]
            unfold _cleanup_removed_layers
            rw [cleanFold_sg]
          rw [@skipCheck_congr w st1 st2 lid layer
            (by rw [hst2]; exact hp2) (by rw [hst2]; exact hp1) hsgl]
          exact hpost
      rw [updFold_noop w visible st2 hnoop]
      -- the second cleanup touches nothing
      have hkeys : ∀ k ∈ st2.location_indicators.map (fun p => p.1),
          k ∈ visible ∨ lookupA k st2.location_indicators = none := by
        intro k _
        by_cases hkv : k ∈ visible
        · exact Or.inl hkv
        · right
          rw [hst2]
          unfold _cleanup_removed_layers
          apply cleanFold_clears w visible _ st1 k hkv
          cases hlk : lookupA k st1.location_indicators with
          | none => exact Or.inl rfl
          | some v => exact Or.inr (lookupA_some_mem_keys hlk)
      have hcln2 := cleanFold_noev w visible
        (st2.location_indicators.map (fun p => p.1)) st2 hkeys
      unfold _cleanup_removed_layers
      simp [hcln2]
    · have hcond : ¬ (w.rootOk = true) := hroot
      unfold _update_all_location_indicators
      rw [if_pos hcond, if_pos hcond]

/-- Witness for `C2_incremental_indicator_diffing`: a visible layer of
an unsaved project whose cached entry matches the fresh computation
(location `None`, matching node, no shared info) triggers no indicator
event. -/
theorem C2_incremental_indicator_diffing_witness :
    let la : Layer := { id := "a", source := "dir/a.shp", featureCount := 5 }
    let nd : Node := { nid := 3, layerId := some "a" }
    let w : World := { mapLayers := [la], nodes := [nd] }
    let st : MgrState :=
      { layer_locations := [("a", (none, some nd, none))] }
    skipCheck w st "a" la = true ∧
      (∀ e ∈ (_update_indicators_for_visible_layers w st ["a"]).2,
        e.lid ≠ "a") := by
  intro la nd w st
  refine ⟨by decide, ?_⟩
  exact (C2_incremental_indicator_diffing w st).1 ["a"] "a" la
    (by decide) rfl (by decide)

end LayerTools
